import Mathlib

/-!
Verification development for the textsGPT message-extraction engine
(`textsgpt/mac/{contact,group_chat,individual_chat,chat}.py` and
`textsgpt/rules.py`), shallowly embedded in Lean 4.

The message store (`chat.db`) is modelled as explicit lists of rows for the
four relations the code reads (`handle`, `chat`, `message`,
`chat_message_join`).  SQL queries are translated into list filters/joins,
pandas DataFrames into `List` of row structures, Python exceptions into
`Except Err`, and the mutable `unknown_addresses` dict into explicitly
threaded association lists.  Numeric DB columns are kept numeric (`Nat`);
the pandas `astype(str)` coercions are bijective decimal encodings that the
CSV round trip inverts, so row equality is unaffected.
-/

namespace TextsGpt

/-- Errors raised by the Python code, by exception class. -/
inductive Err where
  | valueError (msg : String)
  | indexError (msg : String)
  | typeError (msg : String)
deriving DecidableEq, Repr

/-- A row of the `handle` table: `(ROWID, id)` where `id` is the address
(phone number or email) of a sender. -/
structure HandleRow where
  rowid : Nat
  id : String
deriving DecidableEq, Repr

/-- A row of the `chat` table: `(ROWID, display_name, chat_identifier)`. -/
structure ChatRow where
  rowid : Nat
  display_name : String
  chat_identifier : String
deriving DecidableEq, Repr

/-- A row of the `message` table.  `text` is nullable (`None` for
attachment-only messages); the other columns the code reads are non-null
integers in practice. -/
structure MessageRow where
  rowid : Nat
  handle_id : Nat
  is_from_me : Nat
  text : Option String
  date : Nat
  associated_message_type : Nat
deriving DecidableEq, Repr

/-- A row of the `chat_message_join` table: `(chat_id, message_id)`. -/
structure JoinRow where
  chat_id : Nat
  message_id : Nat
deriving DecidableEq, Repr

/-- The chat database: the four relations read by the code. -/
structure ChatDb where
  handle : List HandleRow
  chat : List ChatRow
  message : List MessageRow
  chat_message_join : List JoinRow
deriving DecidableEq, Repr

/-- A row of the normalized messages DataFrame
(columns `sender, text, time, type`). -/
structure MsgRow where
  sender : String
  text : String
  time : Nat
  type : Nat
deriving DecidableEq, Repr

/-- A row of the intermediate DataFrame built by
`IndividualChat.get_message_df` (columns `is_from_me, text, time, type`). -/
structure IndRow where
  is_from_me : Nat
  text : String
  time : Nat
  type : Nat
deriving DecidableEq, Repr

/-! Section: String helpers: SQL LIKE containment -/

/-- Check that `l` starts with `p` (character lists). -/
def listStartsWith : List Char → List Char → Bool
  | _, [] => true
  | [], _ :: _ => false
  | c :: cs, p :: ps => c == p && listStartsWith cs ps

/-- Check that `needle` occurs as a contiguous substring of `hay`. -/
def listHasInfix (hay needle : List Char) : Bool :=
  if listStartsWith hay needle then true
  else
    match hay with
    | [] => false
    | _ :: t => listHasInfix t needle

/-- SQLite LIKE matching of a column against a pattern framed by percent wildcards, on values without wildcard characters:
substring containment, ASCII-case-insensitive. -/
def likeContains (value pat : String) : Bool :=
  listHasInfix (value.data.map Char.toLower) (pat.data.map Char.toLower)

/-! Section: Association lists modelling Python `dict` -/

/-- Lookup in an association list (Python `dict.get` / `in`). -/
def assocFind (m : List (String × String)) (k : String) : Option String :=
  match m with
  | [] => none
  | (k0, v0) :: t => if k0 == k then some v0 else assocFind t k

/-- Python `dict` assignment: overwrite in place if the key is present,
otherwise append (preserving the dict insertion order). -/
def assocSet (m : List (String × String)) (k v : String) :
    List (String × String) :=
  match m with
  | [] => [(k, v)]
  | (k0, v0) :: t => if k0 == k then (k, v) :: t else (k0, v0) :: assocSet t k v

/-! Section: Contact (`textsgpt/mac/contact.py`) -/

/-- The digits of a string, in order (Python
`"".join(c for c in s if c.isdigit())`). -/
def digitsOf (s : String) : String :=
  String.mk (s.data.filter Char.isDigit)

/-- Number of digit characters in a string. -/
def digitCount (s : String) : Nat :=
  (s.data.filter Char.isDigit).length

/-- Python `"@" in address`. -/
def hasAtSign (s : String) : Bool :=
  s.data.contains '@'

structure Contact where
  name : String
  addresses : List String
deriving DecidableEq, Repr

/-- Model of `Contact.clean_and_verify_phone_number`: strip non-digits, then require
10 to 15 digits. -/
def Contact.clean_and_verify_phone_number (phone_number : String) :
    Except Err String :=
  let cleaned := digitsOf phone_number
  if cleaned.length < 10 then
    .error (.valueError "phone number is too short")
  else if cleaned.length > 15 then
    .error (.valueError "phone number is too long")
  else
    .ok cleaned

/-- Model of `Contact.clean_and_verify_addresses`: emails (anything containing `@`)
pass through unchanged; everything else is validated as a phone number.
The Python list comprehension over addresses is rendered as structural
recursion, propagating the first error. -/
def Contact.clean_and_verify_addresses : List String →
    Except Err (List String)
  | [] => .ok []
  | address :: rest =>
    let cleaned :=
      if hasAtSign address then Except.ok address
      else Contact.clean_and_verify_phone_number address
    match cleaned with
    | .error e => .error e
    | .ok a =>
      match Contact.clean_and_verify_addresses rest with
      | .error e => .error e
      | .ok more => .ok (a :: more)

/-- Model of `Contact.__init__`: fails on an empty address list, otherwise cleans and
verifies every address. -/
def Contact.make (name : String) (addresses : List String) :
    Except Err Contact :=
  if addresses.isEmpty then
    .error (.valueError "at least 1 address must be provided for each contact")
  else
    match Contact.clean_and_verify_addresses addresses with
    | .error e => .error e
    | .ok verified => .ok { name := name, addresses := verified }

/-- Handle ROWIDs matching one address:
`SELECT ROWID FROM handle WHERE id like "%address%"`. -/
def handleIdsForAddress (db : ChatDb) (address : String) : List String :=
  (db.handle.filter fun h => likeContains h.id address).map fun h =>
    Nat.repr h.rowid

/-- The loop of `Contact.get_contact_ids`: per address, query the `handle`
table, raising as soon as an address matches nothing, and extend the
accumulated ID list in address order. -/
def contactIdsAux (db : ChatDb) : List String → Except Err (List String)
  | [] => .ok []
  | address :: rest =>
    let ids := handleIdsForAddress db address
    if ids.isEmpty then
      .error (.valueError "address not found in the chat DB.")
    else
      match contactIdsAux db rest with
      | .error e => .error e
      | .ok more => .ok (ids ++ more)

/-- Model of `Contact.get_contact_ids`: concatenation (no deduplication) of the
handle ROWIDs matched by each address. -/
def Contact.get_contact_ids (c : Contact) (db : ChatDb) :
    Except Err (List String) :=
  contactIdsAux db c.addresses

/-! Section: Message query (`get_message_df` in both chat classes)

Both classes run the same join
`message INNER JOIN chat_message_join ON chat_id IN (...) AND ROWID=message_id
[WHERE date > since] ORDER BY date`, differing only in the selected sender
column; the shared query core is factored out here. -/

/-- One joined row per matching `chat_message_join` row, in table order. -/
def joinedRows (db : ChatDb) (chat_ids : List String) : List MessageRow :=
  db.message.flatMap fun m =>
    (db.chat_message_join.filter fun j =>
      chat_ids.contains (Nat.repr j.chat_id) && j.message_id == m.rowid).map
      fun _ => m

/-- Stable insertion into a date-sorted list. -/
def insertByDate (m : MessageRow) : List MessageRow → List MessageRow
  | [] => [m]
  | n :: ns => if n.date ≤ m.date then n :: insertByDate m ns else m :: n :: ns

/-- Stable sort by `date` ascending (`ORDER BY T1.date`). -/
def sortByDate : List MessageRow → List MessageRow
  | [] => []
  | m :: ms => insertByDate m (sortByDate ms)

/-- The rows returned by the SQL query: join, optional strict `date > since`
filter, then sort ascending.  `since = none` models the empty-string default
(no filter). -/
def fetchRows (db : ChatDb) (chat_ids : List String) (since : Option Nat) :
    List MessageRow :=
  let rows := joinedRows db chat_ids
  let rows := match since with
    | none => rows
    | some t => rows.filter fun m => decide (t < m.date)
  sortByDate rows

/-! Section: GroupChat (`textsgpt/mac/group_chat.py`) -/

structure GroupChat where
  name : String
  members : List Contact
  user_name : String
deriving DecidableEq, Repr

/-- Model of `GroupChat.__init__`: `user_name` defaults to "You" and the
`unknown_addresses` cache starts empty (the cache is threaded explicitly
through the functions below). -/
def GroupChat.init (name : String) (members : List Contact) : GroupChat :=
  { name := name, members := members, user_name := "You" }

/-- Model of `GroupChat.get_chat_ids`:
`SELECT ROWID FROM chat WHERE display_name="{name}"`, failing when no row
matches. -/
def GroupChat.get_chat_ids (gc : GroupChat) (db : ChatDb) :
    Except Err (List String) :=
  let chat_ids :=
    (db.chat.filter fun c => c.display_name == gc.name).map fun c =>
      Nat.repr c.rowid
  if chat_ids.isEmpty then
    .error (.valueError "chat not found in the chat DB.")
  else .ok chat_ids

/-- Columnization of one raw row for the group-chat DataFrame: `dropna`
drops rows with null `text`; `sender = str(handle_id)`. -/
def groupCol (m : MessageRow) : Option MsgRow :=
  m.text.map fun txt =>
    { sender := Nat.repr m.handle_id, text := txt, time := m.date,
      type := m.associated_message_type }

/-- Model of `GroupChat.get_message_df`: run the query, drop rows with null `text`
(`dropna`), and columnize as `{sender, text, time, type}` with
`sender = str(handle_id)`. -/
def GroupChat.get_message_df (db : ChatDb) (chat_ids : List String)
    (since : Option Nat) : List MsgRow :=
  (fetchRows db chat_ids since).filterMap groupCol

/-- Model of `GroupChat.get_address_for_contact_id` with the `unknown_addresses`
cache threaded explicitly.  On a cache miss it runs
`SELECT id FROM handle WHERE ROWID={contact_id}`; `fetchone()[0]` raises
`TypeError` when no row matches.  Returns the address, the updated cache,
and the list of contact IDs queried in the DB (empty on a cache hit),
used to reason about query memoization. -/
def GroupChat.get_address_for_contact_id (db : ChatDb)
    (cache : List (String × String)) (contact_id : String) :
    Except Err (String × List (String × String) × List String) :=
  match assocFind cache contact_id with
  | some address => .ok (address, cache, [])
  | none =>
    match db.handle.find? (fun h => Nat.repr h.rowid == contact_id) with
    | none => .error (.typeError "fetchone returned no row")
    | some h => .ok (h.id, assocSet cache contact_id h.id, [contact_id])

/-- Contribution of one member to `contact_id_map`: every one of its contact
IDs is mapped to the name of the member (overwriting earlier bindings). -/
def addMemberIds (cmap : List (String × String)) (ids : List String)
    (name : String) : List (String × String) :=
  ids.foldl (fun m i => assocSet m i name) cmap

/-- The member loop building `contact_id_map`. -/
def buildMapAux (db : ChatDb) : List Contact → List (String × String) →
    Except Err (List (String × String))
  | [], cmap => .ok cmap
  | member :: rest, cmap =>
    match Contact.get_contact_ids member db with
    | .error e => .error e
    | .ok contact_ids =>
      buildMapAux db rest (addMemberIds cmap contact_ids member.name)

/-- The `contact_id_map` built at the start of `GroupChat.load_messages`:
seeded with `"0" -> user_name`, then the contact IDs of each member mapped to its
name, later members overwriting earlier ones. -/
def buildContactIdMap (gc : GroupChat) (db : ChatDb) :
    Except Err (List (String × String)) :=
  buildMapAux db gc.members [("0", gc.user_name)]

/-- The sender substitution
`contact_id_map.get(sender_id) or get_address_for_contact_id(...)`:
Python `or` falls through both when the key is absent and when the mapped
name is the empty string (falsy). -/
def senderLabel (cmap : List (String × String)) (db : ChatDb)
    (cache : List (String × String)) (sender_id : String) :
    Except Err (String × List (String × String) × List String) :=
  match assocFind cmap sender_id with
  | some name =>
    if name == "" then GroupChat.get_address_for_contact_id db cache sender_id
    else .ok (name, cache, [])
  | none => GroupChat.get_address_for_contact_id db cache sender_id

/-- Apply the sender substitution to every row in order, threading the
`unknown_addresses` cache and accumulating the log of DB lookups. -/
def mapSenders (cmap : List (String × String)) (db : ChatDb) :
    List MsgRow → List (String × String) →
    Except Err (List MsgRow × List (String × String) × List String)
  | [], cache => .ok ([], cache, [])
  | r :: rs, cache =>
    match senderLabel cmap db cache r.sender with
    | .error e => .error e
    | .ok (label, cache1, log1) =>
      match mapSenders cmap db rs cache1 with
      | .error e => .error e
      | .ok (rest, cache2, log2) =>
        .ok ({ r with sender := label } :: rest, cache2, log1 ++ log2)

/-- The aggregate unknown-sender warning: its count and the listed
addresses (in dict order). -/
structure Warning where
  count : Nat
  addresses : List String
deriving DecidableEq, Repr

/-- Result of `GroupChat.load_messages`: the message table, the
`unknown_addresses` cache after the call, the warning printed (if any), and
the log of handle-table lookups performed. -/
structure LoadResult where
  rows : List MsgRow
  cache : List (String × String)
  warn : Option Warning
  log : List String
deriving DecidableEq, Repr

/-- Model of `GroupChat.load_messages`: build `contact_id_map`, locate the chat IDs,
fetch and columnize the messages, substitute senders (threading the cache,
whose state at entry is `cache0`), and emit one aggregate warning when
`unknown_addresses` is non-empty. -/
def GroupChat.load_messages (gc : GroupChat) (db : ChatDb)
    (cache0 : List (String × String)) (since : Option Nat) :
    Except Err LoadResult :=
  match buildContactIdMap gc db with
  | .error e => .error e
  | .ok cmap =>
    match GroupChat.get_chat_ids gc db with
    | .error e => .error e
    | .ok chat_ids =>
      match mapSenders cmap db (GroupChat.get_message_df db chat_ids since)
          cache0 with
      | .error e => .error e
      | .ok (rows, cache, log) =>
        .ok { rows := rows, cache := cache,
              warn :=
                if 0 < cache.length then
                  some { count := cache.length,
                         addresses := cache.map Prod.snd }
                else none,
              log := log }

/-! Section: IndividualChat (`textsgpt/mac/individual_chat.py`) -/

structure IndividualChat where
  other_person : Contact
  user_name : String
deriving DecidableEq, Repr

/-- Model of `IndividualChat.__init__`: `user_name` defaults to "You". -/
def IndividualChat.init (other_person : Contact) : IndividualChat :=
  { other_person := other_person, user_name := "You" }

/-- Chat ROWIDs matching one address:
`SELECT ROWID FROM chat WHERE chat_identifier like "%address%"`. -/
def chatIdsForAddress (db : ChatDb) (address : String) : List String :=
  (db.chat.filter fun c => likeContains c.chat_identifier address).map fun c =>
    Nat.repr c.rowid

/-- The loop of `IndividualChat.get_chat_ids`: per address, containment
match on `chat_identifier`, raising as soon as an address matches nothing,
extending the accumulated list in address order. -/
def chatIdsAux (db : ChatDb) : List String → Except Err (List String)
  | [] => .ok []
  | address :: rest =>
    let ids := chatIdsForAddress db address
    if ids.isEmpty then
      .error (.valueError "chat not found in the chat DB.")
    else
      match chatIdsAux db rest with
      | .error e => .error e
      | .ok more => .ok (ids ++ more)

/-- Model of `IndividualChat.get_chat_ids`: concatenation (no deduplication) of the
chat ROWIDs matched by each counterpart address. -/
def IndividualChat.get_chat_ids (ic : IndividualChat) (db : ChatDb) :
    Except Err (List String) :=
  chatIdsAux db ic.other_person.addresses

/-- Columnization of one raw row for the individual-chat DataFrame. -/
def indCol (m : MessageRow) : Option IndRow :=
  m.text.map fun txt =>
    { is_from_me := m.is_from_me, text := txt, time := m.date,
      type := m.associated_message_type }

/-- Model of `IndividualChat.get_message_df`: same query with `is_from_me` selected
instead of `handle_id`, then `dropna` and columnization. -/
def IndividualChat.get_message_df (db : ChatDb) (chat_ids : List String)
    (since : Option Nat) : List IndRow :=
  (fetchRows db chat_ids since).filterMap indCol

/-- The sender substitution of `IndividualChat.load_messages`: `user_name`
when `is_from_me == 1`, else the name of the counterpart. -/
def indSender (ic : IndividualChat) (r : IndRow) : MsgRow :=
  { sender := if r.is_from_me == 1 then ic.user_name
    else ic.other_person.name,
    text := r.text, time := r.time, type := r.type }

/-- Model of `IndividualChat.load_messages`: locate the chat IDs, fetch, and replace
`is_from_me` with the sender label. -/
def IndividualChat.load_messages (ic : IndividualChat) (db : ChatDb)
    (since : Option Nat) : Except Err (List MsgRow) :=
  match IndividualChat.get_chat_ids ic db with
  | .error e => .error e
  | .ok chat_ids =>
    .ok ((IndividualChat.get_message_df db chat_ids since).map (indSender ic))

/-! Section: Chat wrapper (`textsgpt/mac/chat.py`)

`Chat.load_messages` dispatches `self.chat.load_messages` on the wrapped
group/individual chat; the duck-typed method is embedded as a function
argument `load`.  The persisted CSV is `none` when the file does not exist
and `some rows` (possibly empty, since `to_csv` always writes the header)
when it does. -/

/-- Model of `Chat.load_messages`: with no CSV, fetch everything; with a CSV, take
the `time` of the last row as the watermark (`iloc[-1]` raises `IndexError` on an
empty table) and fetch only newer rows. -/
def Chat.load_messages (load : Option Nat → Except Err (List MsgRow))
    (csv : Option (List MsgRow)) : Except Err (List MsgRow) :=
  match csv with
  | none => load none
  | some earlier_messages =>
    match earlier_messages.getLast? with
    | none => .error (.indexError "single positional indexer is out-of-bounds")
    | some last => load (some last.time)

/-- Model of `Chat.save_messages`: concatenate the earlier CSV (if it exists) with
the messages pulled this run; returns the new CSV contents. -/
def Chat.save_messages (csv : Option (List MsgRow))
    (messages : List MsgRow) : List MsgRow :=
  match csv with
  | none => messages
  | some earlier_messages => earlier_messages ++ messages

/-- The group-chat loader as seen by `Chat` (`self.chat.load_messages`),
projecting out the message table. -/
def GroupChat.loadRows (gc : GroupChat) (db : ChatDb)
    (cache0 : List (String × String)) (since : Option Nat) :
    Except Err (List MsgRow) :=
  (GroupChat.load_messages gc db cache0 since).map fun res => res.rows

/-! Section: Incremental-fetch scenario database (claim C1)

One chat (ROWID 1) with four messages whose timestamps are
`T-1, T, T+1, T+2` for a prior watermark `T = base + 1` (so that the
subtraction-free dates are `base, base+1, base+2, base+3`). -/

def c1msg (rowid date : Nat) : MessageRow :=
  { rowid := rowid, handle_id := 1, is_from_me := 0,
    text := some (Nat.repr rowid), date := date,
    associated_message_type := 0 }

def dbC1 (base : Nat) : ChatDb :=
  { handle := []
    chat := [{ rowid := 1, display_name := "name", chat_identifier := "c1" }]
    message := [c1msg 1 base, c1msg 2 (base + 1), c1msg 3 (base + 2),
                c1msg 4 (base + 3)]
    chat_message_join := [{ chat_id := 1, message_id := 1 },
                          { chat_id := 1, message_id := 2 },
                          { chat_id := 1, message_id := 3 },
                          { chat_id := 1, message_id := 4 }] }

/-- Storage for the C2 counterexample: the group chat exists in the `chat`
table but holds no messages, so the first full extraction returns zero
rows. -/
def dbC2 : ChatDb :=
  { handle := []
    chat := [{ rowid := 1, display_name := "name", chat_identifier := "c0" }]
    message := []
    chat_message_join := [] }

def gcC2 : GroupChat := GroupChat.init "name" []

/-- Witness database for C2: one chat matching both a group descriptor (by
display name) and an individual descriptor (by chat identifier), holding
one message from handle 1. -/
def dbC2w : ChatDb :=
  { handle := [{ rowid := 1, id := "a@b" }]
    chat := [{ rowid := 1, display_name := "name", chat_identifier := "c1" }]
    message := [{ rowid := 1, handle_id := 1, is_from_me := 0,
                  text := some "hi", date := 5,
                  associated_message_type := 0 }]
    chat_message_join := [{ chat_id := 1, message_id := 1 }] }

def gcC2w : GroupChat := GroupChat.init "name" []

def icC2w : IndividualChat :=
  IndividualChat.init { name := "Ann", addresses := ["c1"] }

def resC2w : LoadResult :=
  { rows := [{ sender := "a@b", text := "hi", time := 5, type := 0 }]
    cache := [("1", "a@b")]
    warn := some { count := 1, addresses := ["a@b"] }
    log := ["1"] }

/-! Section: Sender resolution: specification helpers (claims C3, C4, C9) -/

/-- The usable binding that the Python idiom `contact_id_map.get(sender_id) or ...`
extracts: `none` when the key is absent or its value is falsy (empty). -/
def truthyFind (m : List (String × String)) (k : String) : Option String :=
  match assocFind m k with
  | some v => if v == "" then none else some v
  | none => none

/-- The address stored in the `handle` table for a sender identifier
(first matching row), `""` if there is none. -/
def handleAddr (db : ChatDb) (sid : String) : String :=
  match db.handle.find? (fun h => Nat.repr h.rowid == sid) with
  | some h => h.id
  | none => ""

/-- The sender label `GroupChat.load_messages` assigns: the declared
name of the declared contact when the map yields a truthy binding, else the raw address
from the `handle` table. -/
def resolveLabel (cmap : List (String × String)) (db : ChatDb)
    (sid : String) : String :=
  match truthyFind cmap sid with
  | some name => name
  | none => handleAddr db sid

/-- Invariant of the `unknown_addresses` cache: every cached address is the
one stored in the `handle` table for its identifier. -/
def CacheOk (db : ChatDb) (cache : List (String × String)) : Prop :=
  ∀ kv ∈ cache, kv.2 = handleAddr db kv.1

/-! Section: Scenario database shared by claims C3, C4 and C5 (conftest-like) -/

def alice : Contact :=
  { name := "Alice", addresses := ["1234567890", "alice@email.com"] }

def bob : Contact := { name := "Bob", addresses := ["1000000000"] }

def dbMain : ChatDb :=
  { handle := [{ rowid := 1, id := "+11234567890" },
               { rowid := 2, id := "+11000000000" },
               { rowid := 4, id := "+11234567890" },
               { rowid := 6, id := "alice@email.com" },
               { rowid := 50, id := "unknown@email.com" }]
    chat := [{ rowid := 1, display_name := "name",
               chat_identifier := "chat12345678" },
             { rowid := 2, display_name := "name2",
               chat_identifier := "chat87654321" },
             { rowid := 3, display_name := "",
               chat_identifier := "+11234567890" },
             { rowid := 4, display_name := "name",
               chat_identifier := "chat11235813" },
             { rowid := 5, display_name := "",
               chat_identifier := "+11000000000" },
             { rowid := 6, display_name := "",
               chat_identifier := "+11234567890" },
             { rowid := 7, display_name := "",
               chat_identifier := "alice@email.com" }]
    message := [{ rowid := 1, handle_id := 0, is_from_me := 1,
                  text := some "hello alice and bob", date := 0,
                  associated_message_type := 0 },
                { rowid := 2, handle_id := 1, is_from_me := 0,
                  text := some "hello user and bob", date := 10,
                  associated_message_type := 0 },
                { rowid := 3, handle_id := 2, is_from_me := 0,
                  text := some "hello user and alice", date := 20,
                  associated_message_type := 0 },
                { rowid := 4, handle_id := 6, is_from_me := 0,
                  text := some "Loved it", date := 30,
                  associated_message_type := 2000 },
                { rowid := 5, handle_id := 0, is_from_me := 1,
                  text := some "hello a and b", date := 1,
                  associated_message_type := 0 },
                { rowid := 6, handle_id := 1, is_from_me := 0,
                  text := some "hello u and b", date := 11,
                  associated_message_type := 0 },
                { rowid := 7, handle_id := 2, is_from_me := 0,
                  text := some "hello u and a", date := 21,
                  associated_message_type := 0 },
                { rowid := 9, handle_id := 50, is_from_me := 0,
                  text := some "hello -anonymous", date := 41,
                  associated_message_type := 0 }]
    chat_message_join := [{ chat_id := 1, message_id := 1 },
                          { chat_id := 1, message_id := 2 },
                          { chat_id := 1, message_id := 3 },
                          { chat_id := 4, message_id := 4 },
                          { chat_id := 2, message_id := 5 },
                          { chat_id := 2, message_id := 6 },
                          { chat_id := 2, message_id := 7 },
                          { chat_id := 2, message_id := 9 }] }

/-- The section-8 group conversation "name" with members Alice and Bob. -/
def gcName : GroupChat := GroupChat.init "name" [alice, bob]

/-- The group conversation "name2" containing a message from the
undeclared sender with identifier 50. -/
def gcName2 : GroupChat := GroupChat.init "name2" [alice, bob]

/-- The individual conversation with Alice (two addresses). -/
def icAlice : IndividualChat := IndividualChat.init alice

/-- Storage for the two C9 counterexample runs: the same group chat, where
the address stored for handle 1 changes between run 1 and run 2. -/
def dbC9a : ChatDb :=
  { handle := [{ rowid := 1, id := "old@x" }]
    chat := [{ rowid := 1, display_name := "g", chat_identifier := "c" }]
    message := [{ rowid := 1, handle_id := 1, is_from_me := 0,
                  text := some "m", date := 0,
                  associated_message_type := 0 }]
    chat_message_join := [{ chat_id := 1, message_id := 1 }] }

def dbC9b : ChatDb :=
  { handle := [{ rowid := 1, id := "new@x" }]
    chat := [{ rowid := 1, display_name := "g", chat_identifier := "c" }]
    message := [{ rowid := 1, handle_id := 1, is_from_me := 0,
                  text := some "m", date := 0,
                  associated_message_type := 0 }]
    chat_message_join := [{ chat_id := 1, message_id := 1 }] }

def gcC9 : GroupChat := GroupChat.init "g" []

/-! Section: Address validation (claim C6) -/

/-- The cleaned form of one address: emails (containing `@`) unchanged,
phone numbers reduced to their digits. -/
def cleanSpecFn (a : String) : String :=
  if hasAtSign a then a else digitsOf a

/-! Section: `remove_links` (`textsgpt/rules.py`, claim C7)

The link pattern is
`http[s]?://(?:[a-zA-Z]|[0-9]|[$-_@.&+]|[!*\(\), ]|(?:%[0-9a-fA-F][0-9a-fA-F]))+`.
Its one-character alternatives are: ASCII letters, digits, the byte range
`$`–`_` (0x24–0x5F — a range, which already covers digits, uppercase
letters, `@ . & + * ( ) , %` and uppercase hex letters), the extras
`@ . & + ! * ( ) ,` and the space character.  The three-character `%xx`
alternative is subsumed by the one-character ones (`%` and hex digits are
all in the class), so the matched language is `scheme` followed by one or
more class characters, matched greedily; `re.sub` removes the leftmost
non-overlapping matches. -/

def isLinkChar (c : Char) : Bool :=
  let n := c.toNat
  (97 ≤ n && n ≤ 122) || (65 ≤ n && n ≤ 90) || (48 ≤ n && n ≤ 57) ||
    (36 ≤ n && n ≤ 95) || n == 64 || n == 46 || n == 38 || n == 43 ||
    n == 33 || n == 42 || n == 40 || n == 41 || n == 44 || n == 32

/-- Length of the maximal leading run of link-class characters. -/
def linkRunLen : List Char → Nat
  | [] => 0
  | c :: cs => if isLinkChar c then linkRunLen cs + 1 else 0

/-- Length of the regex match starting exactly at the head of `l`
(0 when there is no match there): scheme `https://` or `http://` followed
by at least one class character, extended greedily. -/
def linkSchemeLen (l : List Char) : Nat :=
  if listStartsWith l ("https://".data) then
    if linkRunLen (l.drop 8) == 0 then 0 else 8 + linkRunLen (l.drop 8)
  else if listStartsWith l ("http://".data) then
    if linkRunLen (l.drop 7) == 0 then 0 else 7 + linkRunLen (l.drop 7)
  else 0

/-- The `re.sub` scan: at each position, if a match starts there, delete it
and continue after it; otherwise keep the character and move on.  `fuel`
bounds the recursion structurally; every step consumes at least one
character, so `fuel = l.length` (as used by `removeLinksChars`) never runs
out before the list does. -/
def removeLinksAux : Nat → List Char → List Char
  | _, [] => []
  | 0, l => l
  | fuel + 1, c :: cs =>
    let n := linkSchemeLen (c :: cs)
    if 0 < n then removeLinksAux fuel ((c :: cs).drop n)
    else c :: removeLinksAux fuel cs

def removeLinksChars (l : List Char) : List Char :=
  removeLinksAux l.length l

/-- Model of `remove_links`: strip URL substrings from the `text` column in place;
rows are mapped one-to-one, never dropped. -/
def remove_links (messages : List MsgRow) : List MsgRow :=
  messages.map fun r =>
    { r with text := String.mk (removeLinksChars r.text.data) }

/-- A one-message row with the given text, used in the C7 scenarios. -/
def c7row (t : String) : MsgRow :=
  { sender := "s", text := t, time := 0, type := 0 }

/-! Section: Data-directory derivation (`Chat.create_data_dir`, claim C8)

The built-in Python `hash` on strings is salted per process
(`PYTHONHASHSEED`), so the hash used by the fallback branch is an
environment input: the embedding takes it as an explicit function
parameter.  Within one process the parameter is fixed; across two runs of
the program the two parameters may differ. -/

/-- Python regex `\w` (ASCII range): alphanumeric or underscore. -/
def isWordCharPy (c : Char) : Bool :=
  c.isAlphanum || c == '_'

/-- Python regex `\s` (ASCII range): the six whitespace characters. -/
def isSpacePy (c : Char) : Bool :=
  c == ' ' || c == '\t' || c == '\n' || c == '\r' || c == '\x0b' ||
    c == '\x0c'

/-- Model of `re.sub(r"\s+", "_", s)`: each maximal whitespace run becomes one
underscore.  The flag records whether the scan is inside a run that has
already emitted its underscore. -/
def collapseWsAux : Bool → List Char → List Char
  | _, [] => []
  | inRun, c :: cs =>
    if isSpacePy c then
      if inRun then collapseWsAux true cs
      else '_' :: collapseWsAux true cs
    else c :: collapseWsAux false cs

def collapseWs (l : List Char) : List Char :=
  collapseWsAux false l

/-- The sanitized chat name: whitespace runs to underscores
(`re.sub(r"\s+", "_", ·)`), then all remaining non-word characters removed
(`re.sub(r"[\W]+", "", ·)`). -/
def friendly_name (chat_name : String) : String :=
  String.mk ((collapseWs chat_name.data).filter isWordCharPy)

/-- Model of `Chat.create_data_dir` (path derivation only; the directory creation
side effect is out of scope).  `hash` is the salted string
hash of the process. -/
def Chat.create_data_dir (hash : String → Int) (chat_name : String) :
    String :=
  let fn := friendly_name chat_name
  let fn2 := if fn.data.length == 0 then toString (hash chat_name) else fn
  "data/" ++ fn2

/-! Section: Lemmas about the query: sorting and the `since` filter -/

theorem mem_insertByDate {x m : MessageRow} {l : List MessageRow} :
    x ∈ insertByDate m l ↔ x = m ∨ x ∈ l := by
  induction l with
  | nil => simp [insertByDate]
  | cons n ns ih =>
    simp only [insertByDate]
    split
    · simp only [List.mem_cons, ih]
      tauto
    · simp only [List.mem_cons]

theorem mem_sortByDate {x : MessageRow} {l : List MessageRow} :
    x ∈ sortByDate l ↔ x ∈ l := by
  induction l with
  | nil => simp [sortByDate]
  | cons m ms ih => simp [sortByDate, mem_insertByDate, ih]

theorem pairwise_insertByDate {m : MessageRow} {l : List MessageRow}
    (h : l.Pairwise (fun a b => a.date ≤ b.date)) :
    (insertByDate m l).Pairwise (fun a b => a.date ≤ b.date) := by
  induction l with
  | nil => simp [insertByDate]
  | cons n ns ih =>
    rcases List.pairwise_cons.mp h with ⟨hn, hns⟩
    simp only [insertByDate]
    split
    · refine List.pairwise_cons.mpr ⟨?_, ih hns⟩
      intro x hx
      rcases mem_insertByDate.mp hx with rfl | hx
      · omega
      · exact hn x hx
    · refine List.pairwise_cons.mpr ⟨?_, h⟩
      intro x hx
      rcases List.mem_cons.mp hx with rfl | hx
      · omega
      · have := hn x hx
        omega

theorem pairwise_sortByDate (l : List MessageRow) :
    (sortByDate l).Pairwise (fun a b => a.date ≤ b.date) := by
  induction l with
  | nil => simp [sortByDate]
  | cons m ms ih => exact pairwise_insertByDate ih

theorem insertByDate_eq_cons {m : MessageRow} {l : List MessageRow}
    (h : ∀ z ∈ l, m.date < z.date) : insertByDate m l = m :: l := by
  cases l with
  | nil => rfl
  | cons n ns =>
    have hn := h n (by simp)
    simp only [insertByDate]
    rw [if_neg (by omega)]

theorem filter_insertByDate (p : MessageRow → Bool) (m : MessageRow)
    (l : List MessageRow) (hl : l.Pairwise (fun a b => a.date ≤ b.date)) :
    (insertByDate m l).filter p =
      if p m then insertByDate m (l.filter p) else l.filter p := by
  induction l with
  | nil =>
    simp [insertByDate, List.filter_cons]
  | cons y ys ih =>
    rcases List.pairwise_cons.mp hl with ⟨hy, hys⟩
    simp only [insertByDate]
    split
    · -- y.date ≤ m.date: m is inserted further right
      rename_i hle
      rw [List.filter_cons, List.filter_cons, ih hys]
      cases hpy : p y <;> cases hpm : p m
      · simp
      · simp
      · simp
      · have h2 : insertByDate m (y :: List.filter p ys) =
            y :: insertByDate m (List.filter p ys) := by
          rw [insertByDate, if_pos hle]
        simp [h2]
    · -- m.date < y.date: m goes to the front
      rename_i hgt
      have hmy : m.date < y.date := by omega
      rw [List.filter_cons]
      cases hpm : p m
      · simp
      · simp only [if_pos rfl]
        rw [insertByDate_eq_cons]
        intro z hz
        have hz2 := List.mem_of_mem_filter hz
        rcases List.mem_cons.mp hz2 with rfl | hz3
        · exact hmy
        · have := hy z hz3
          omega

theorem filter_sortByDate (p : MessageRow → Bool) (l : List MessageRow) :
    (sortByDate l).filter p = sortByDate (l.filter p) := by
  induction l with
  | nil => rfl
  | cons m ms ih =>
    simp only [sortByDate]
    rw [filter_insertByDate p m (sortByDate ms) (pairwise_sortByDate ms), ih]
    simp only [List.filter]
    cases hpm : p m
    · simp
    · simp [sortByDate]

theorem fetchRows_some_eq_filter (db : ChatDb) (chat_ids : List String)
    (t : Nat) :
    fetchRows db chat_ids (some t) =
      (fetchRows db chat_ids none).filter fun m => decide (t < m.date) := by
  unfold fetchRows
  exact (filter_sortByDate _ _).symm

theorem mem_fetchRows {db : ChatDb} {chat_ids : List String}
    {since : Option Nat} {m : MessageRow} :
    m ∈ fetchRows db chat_ids since →
      m ∈ joinedRows db chat_ids ∧ ∀ t, since = some t → t < m.date := by
  intro h
  unfold fetchRows at h
  cases since with
  | none =>
    simp only at h
    exact ⟨mem_sortByDate.mp h, by intro t ht; cases ht⟩
  | some t =>
    simp only at h
    have h2 := mem_sortByDate.mp h
    have h3 := List.mem_filter.mp h2
    refine ⟨h3.1, ?_⟩
    intro t2 ht2
    cases ht2
    simpa using h3.2

/-! Section: Columnization: `dropna` plus field projection preserves order -/

theorem filterMap_filter_comm {α : Type} (f : MessageRow → Option α)
    (timeOf : α → Nat)
    (hf : ∀ m a, f m = some a → timeOf a = m.date) (p : Nat → Bool) :
    ∀ rows : List MessageRow,
      (rows.filter fun m => p m.date).filterMap f =
        (rows.filterMap f).filter fun a => p (timeOf a) := by
  intro rows
  induction rows with
  | nil => rfl
  | cons m ms ih =>
    cases hm : f m with
    | none =>
      cases hpm : p m.date <;>
        simp [List.filter_cons, List.filterMap_cons, hm, hpm, ih]
    | some a =>
      have ha := hf m a hm
      cases hpm : p m.date <;>
        simp [List.filter_cons, List.filterMap_cons, hm, hpm, ha, ih]

theorem pairwise_filterMap {α : Type} (f : MessageRow → Option α)
    (timeOf : α → Nat)
    (hf : ∀ m a, f m = some a → timeOf a = m.date)
    {rows : List MessageRow}
    (h : rows.Pairwise fun a b => a.date ≤ b.date) :
    (rows.filterMap f).Pairwise fun a b => timeOf a ≤ timeOf b := by
  induction rows with
  | nil => simp
  | cons m ms ih =>
    rcases List.pairwise_cons.mp h with ⟨hm, hms⟩
    simp only [List.filterMap]
    cases hfm : f m with
    | none => exact ih hms
    | some a =>
      refine List.pairwise_cons.mpr ⟨?_, ih hms⟩
      intro b hb
      rcases List.mem_filterMap.mp hb with ⟨n, hn, hfn⟩
      rw [hf m a hfm, hf n b hfn]
      exact hm n hn

theorem groupCol_time {m : MessageRow} {a : MsgRow} (h : groupCol m = some a) :
    a.time = m.date := by
  cases htxt : m.text with
  | none => rw [groupCol, htxt] at h; cases h
  | some txt =>
    rw [groupCol, htxt] at h
    cases h
    rfl

theorem indCol_time {m : MessageRow} {a : IndRow} (h : indCol m = some a) :
    a.time = m.date := by
  cases htxt : m.text with
  | none => rw [indCol, htxt] at h; cases h
  | some txt =>
    rw [indCol, htxt] at h
    cases h
    rfl

theorem fetchRows_pairwise (db : ChatDb) (chat_ids : List String)
    (since : Option Nat) :
    (fetchRows db chat_ids since).Pairwise fun a b => a.date ≤ b.date := by
  unfold fetchRows
  cases since <;> exact pairwise_sortByDate _

/-- The `since` filter commutes out of the whole group fetch: fetching with
a watermark returns exactly the full fetch restricted to strictly newer
rows. -/
theorem group_df_since (db : ChatDb) (chat_ids : List String) (t : Nat) :
    GroupChat.get_message_df db chat_ids (some t) =
      (GroupChat.get_message_df db chat_ids none).filter fun r =>
        decide (t < r.time) := by
  unfold GroupChat.get_message_df
  rw [fetchRows_some_eq_filter]
  exact filterMap_filter_comm groupCol MsgRow.time
    (fun m a h => groupCol_time h) (fun d => decide (t < d)) _

theorem ind_df_since (db : ChatDb) (chat_ids : List String) (t : Nat) :
    IndividualChat.get_message_df db chat_ids (some t) =
      (IndividualChat.get_message_df db chat_ids none).filter fun r =>
        decide (t < r.time) := by
  unfold IndividualChat.get_message_df
  rw [fetchRows_some_eq_filter]
  exact filterMap_filter_comm indCol IndRow.time
    (fun m a h => indCol_time h) (fun d => decide (t < d)) _

theorem group_df_pairwise (db : ChatDb) (chat_ids : List String)
    (since : Option Nat) :
    (GroupChat.get_message_df db chat_ids since).Pairwise fun a b =>
      a.time ≤ b.time := by
  exact pairwise_filterMap groupCol MsgRow.time (fun m a h => groupCol_time h)
    (fetchRows_pairwise db chat_ids since)

theorem ind_df_pairwise (db : ChatDb) (chat_ids : List String)
    (since : Option Nat) :
    (IndividualChat.get_message_df db chat_ids since).Pairwise fun a b =>
      a.time ≤ b.time := by
  exact pairwise_filterMap indCol IndRow.time (fun m a h => indCol_time h)
    (fetchRows_pairwise db chat_ids since)

theorem dbC1_fetch (base : Nat) :
    fetchRows (dbC1 base) ["1"] (some (base + 1)) =
      [c1msg 3 (base + 2), c1msg 4 (base + 3)] := by
  have hjoin : joinedRows (dbC1 base) ["1"] =
      [c1msg 1 base, c1msg 2 (base + 1), c1msg 3 (base + 2),
       c1msg 4 (base + 3)] := rfl
  simp only [fetchRows, hjoin]
  have h1 : decide (base + 1 < (c1msg 1 base).date) = false :=
    decide_eq_false (by simp [c1msg])
  have h2 : decide (base + 1 < (c1msg 2 (base + 1)).date) = false :=
    decide_eq_false (by simp [c1msg])
  have h3 : decide (base + 1 < (c1msg 3 (base + 2)).date) = true :=
    decide_eq_true (by simp [c1msg])
  have h4 : decide (base + 1 < (c1msg 4 (base + 3)).date) = true :=
    decide_eq_true (by simp [c1msg])
  rw [List.filter_cons, List.filter_cons, List.filter_cons, List.filter_cons,
    h1, h2, h3, h4]
  simp only [if_true, if_false, Bool.false_eq_true, List.filter_nil]
  rw [sortByDate, sortByDate, sortByDate]
  rw [insertByDate, insertByDate]
  rw [if_neg (by simp [c1msg])]

/-- C1: the incremental message fetch keeps exactly the joined rows with
timestamp strictly greater than the watermark (a row whose timestamp equals
the watermark is never returned), orders the result by timestamp ascending,
and on the section-8 scenario (prior max timestamp `T = base+1`, new rows at
`T-1, T, T+1, T+2`) returns only the `T+1` and `T+2` rows.  Stated for both
`GroupChat.get_message_df` and `IndividualChat.get_message_df`. -/
theorem C1_incremental_fetch (db : ChatDb) (chat_ids : List String) (t : Nat)
    (base : Nat) (_hids : chat_ids ≠ []) :
    (GroupChat.get_message_df db chat_ids (some t) =
      (GroupChat.get_message_df db chat_ids none).filter fun r =>
        decide (t < r.time)) ∧
    (∀ r ∈ GroupChat.get_message_df db chat_ids (some t), t < r.time) ∧
    ((GroupChat.get_message_df db chat_ids (some t)).Pairwise fun a b =>
      a.time ≤ b.time) ∧
    (IndividualChat.get_message_df db chat_ids (some t) =
      (IndividualChat.get_message_df db chat_ids none).filter fun r =>
        decide (t < r.time)) ∧
    (∀ r ∈ IndividualChat.get_message_df db chat_ids (some t), t < r.time) ∧
    ((IndividualChat.get_message_df db chat_ids (some t)).Pairwise fun a b =>
      a.time ≤ b.time) ∧
    (GroupChat.get_message_df (dbC1 base) ["1"] (some (base + 1)) =
      [{ sender := "1", text := "3", time := base + 2, type := 0 },
       { sender := "1", text := "4", time := base + 3, type := 0 }]) := by
  refine ⟨group_df_since db chat_ids t, ?_, group_df_pairwise db chat_ids _,
    ind_df_since db chat_ids t, ?_, ind_df_pairwise db chat_ids _, ?_⟩
  · intro r hr
    rw [group_df_since] at hr
    have := (List.mem_filter.mp hr).2
    simpa using this
  · intro r hr
    rw [ind_df_since] at hr
    have := (List.mem_filter.mp hr).2
    simpa using this
  · unfold GroupChat.get_message_df
    rw [dbC1_fetch]
    simp [groupCol, c1msg, List.filterMap_cons]
    decide

/-- Witness for C1 at a concrete database and watermark. -/
theorem C1_incremental_fetch_witness :
    GroupChat.get_message_df (dbC1 9) ["1"] (some 10) =
      [{ sender := "1", text := "3", time := 11, type := 0 },
       { sender := "1", text := "4", time := 12, type := 0 }] :=
  (C1_incremental_fetch (dbC1 9) ["1"] 10 9 (by decide)).2.2.2.2.2.2

/-! Section: The incremental load/merge protocol (claims C2 and C10) -/

/-- C10: if the persisted messages CSV exists but holds zero data rows
(`some []` — `to_csv` always writes the header, so the file exists), the
incremental path of `Chat.load_messages` derives its watermark by indexing
the last row of the empty prior table and fails with `IndexError` instead of
falling back to a full fetch, whatever the loader of the wrapped chat would have
returned. -/
theorem C10_empty_csv_errors
    (load : Option Nat → Except Err (List MsgRow)) :
    Chat.load_messages load (some []) =
      .error (.indexError "single positional indexer is out-of-bounds") := rfl

/-- Sender substitution only rewrites the `sender` column: the `text`,
`time` and `type` columns are preserved row-for-row. -/
theorem mapSenders_shape (cmap : List (String × String)) (db : ChatDb) :
    ∀ (rows : List MsgRow) (cache0 : List (String × String))
      (out : List MsgRow) (cache : List (String × String))
      (log : List String),
      mapSenders cmap db rows cache0 = .ok (out, cache, log) →
      out.map (fun r => (r.text, r.time, r.type)) =
        rows.map (fun r => (r.text, r.time, r.type)) := by
  intro rows
  induction rows with
  | nil =>
    intro cache0 out cache log h
    simp only [mapSenders, Except.ok.injEq, Prod.mk.injEq] at h
    rw [← h.1]
  | cons r rs ih =>
    intro cache0 out cache log h
    cases hsl : senderLabel cmap db cache0 r.sender with
    | error e =>
      simp only [mapSenders, hsl] at h
      exact Except.noConfusion h
    | ok trip =>
      obtain ⟨label, cache1, log1⟩ := trip
      cases hrec : mapSenders cmap db rs cache1 with
      | error e =>
        simp only [mapSenders, hsl, hrec] at h
        exact Except.noConfusion h
      | ok trip2 =>
        obtain ⟨rest, cache2, log2⟩ := trip2
        simp only [mapSenders, hsl, hrec, Except.ok.injEq, Prod.mk.injEq] at h
        rw [← h.1]
        simp only [List.map_cons]
        rw [ih cache1 rest cache2 log2 hrec]

theorem mapSenders_times {cmap : List (String × String)} {db : ChatDb}
    {rows : List MsgRow} {cache0 : List (String × String)}
    {out : List MsgRow} {cache : List (String × String)}
    {log : List String}
    (h : mapSenders cmap db rows cache0 = .ok (out, cache, log)) :
    out.map MsgRow.time = rows.map MsgRow.time := by
  have hs := mapSenders_shape cmap db rows cache0 out cache log h
  have h1 : out.map MsgRow.time =
      (out.map fun r => (r.text, r.time, r.type)).map fun p => p.2.1 := by
    rw [List.map_map]; rfl
  have h2 : rows.map MsgRow.time =
      (rows.map fun r => (r.text, r.time, r.type)).map fun p => p.2.1 := by
    rw [List.map_map]; rfl
  rw [h1, h2, hs]

/-- Inversion of a successful `GroupChat.load_messages`: extract the
contact map, chat IDs and sender-substitution run it was built from. -/
theorem group_load_messages_inv {gc : GroupChat} {db : ChatDb}
    {cache0 : List (String × String)} {since : Option Nat}
    {res : LoadResult}
    (h : GroupChat.load_messages gc db cache0 since = .ok res) :
    ∃ cmap chat_ids log,
      buildContactIdMap gc db = .ok cmap ∧
      GroupChat.get_chat_ids gc db = .ok chat_ids ∧
      mapSenders cmap db (GroupChat.get_message_df db chat_ids since)
        cache0 = .ok (res.rows, res.cache, log) := by
  cases hcm : buildContactIdMap gc db with
  | error e =>
    simp only [GroupChat.load_messages, hcm] at h
    exact Except.noConfusion h
  | ok cmap =>
    cases hci : GroupChat.get_chat_ids gc db with
    | error e =>
      simp only [GroupChat.load_messages, hcm, hci] at h
      exact Except.noConfusion h
    | ok chat_ids =>
      cases hms : mapSenders cmap db
          (GroupChat.get_message_df db chat_ids since) cache0 with
      | error e =>
        simp only [GroupChat.load_messages, hcm, hci, hms] at h
        exact Except.noConfusion h
      | ok trip =>
        obtain ⟨rows, cache, log⟩ := trip
        simp only [GroupChat.load_messages, hcm, hci, hms,
          Except.ok.injEq] at h
        refine ⟨cmap, chat_ids, log, rfl, rfl, ?_⟩
        rw [← h]
        exact hms

/-- Inversion of a successful `IndividualChat.load_messages`. -/
theorem ind_load_messages_inv {ic : IndividualChat} {db : ChatDb}
    {since : Option Nat} {rows : List MsgRow}
    (h : IndividualChat.load_messages ic db since = .ok rows) :
    ∃ chat_ids,
      IndividualChat.get_chat_ids ic db = .ok chat_ids ∧
      rows = (IndividualChat.get_message_df db chat_ids since).map
        (indSender ic) := by
  cases hci : IndividualChat.get_chat_ids ic db with
  | error e =>
    simp only [IndividualChat.load_messages, hci] at h
    exact Except.noConfusion h
  | ok chat_ids =>
    simp only [IndividualChat.load_messages, hci, Except.ok.injEq] at h
    exact ⟨chat_ids, rfl, h.symm⟩

/-- In a list sorted by a numeric key, the key of every element is bounded by
the key of the last element. -/
theorem pairwise_le_getLast {α : Type} (f : α → Nat) {l : List α} {last : α}
    (hs : l.Pairwise fun a b => f a ≤ f b)
    (hl : l.getLast? = some last) : ∀ x ∈ l, f x ≤ f last := by
  induction l with
  | nil => cases hl
  | cons y ys ih =>
    rcases List.pairwise_cons.mp hs with ⟨hy, hys⟩
    cases ys with
    | nil =>
      intro x hx
      simp only [List.getLast?_singleton, Option.some.injEq] at hl
      simp only [List.mem_singleton] at hx
      rw [hx, hl]
    | cons z zs =>
      have hl2 : (z :: zs).getLast? = some last := by
        rwa [List.getLast?_cons_cons] at hl
      intro x hx
      rcases List.mem_cons.mp hx with rfl | hx2
      · exact hy last (List.mem_of_mem_getLast? hl2)
      · exact ih hys hl2 x hx2

/-- C2 counterexample: for a chat whose storage holds no messages (and does
not change between runs), the first full extraction succeeds with zero rows
and persisting it creates the CSV (`to_csv` writes the header), but the
incremental load of the second run then fails with `IndexError` instead of
producing a table equal to the full extraction — so the universal
idempotence statement of the claim is false for this chat. -/
theorem C2_counterexample :
    GroupChat.loadRows gcC2 dbC2 [] none = .ok [] ∧
    Chat.save_messages none [] = [] ∧
    Chat.load_messages (GroupChat.loadRows gcC2 dbC2 [])
        (some (Chat.save_messages none [])) =
      .error (.indexError "single positional indexer is out-of-bounds") :=
  ⟨rfl, rfl, rfl⟩

/-- C2 (amended): for every chat whose storage does not change between runs
and whose first full extraction returns at least one row, a second
extraction run — which takes the last-row timestamp of the persisted table as
watermark — fetches no rows, and merging via `save_messages` leaves the
persisted table equal row-for-row to the single full extraction.  Stated
for both the group and the individual chat pipelines. -/
theorem C2_idempotent_merge (gc : GroupChat) (ic : IndividualChat)
    (db : ChatDb) (res : LoadResult) (rows1 : List MsgRow)
    (hg : GroupChat.load_messages gc db [] none = .ok res)
    (hgne : res.rows ≠ [])
    (hi : IndividualChat.load_messages ic db none = .ok rows1)
    (hine : rows1 ≠ []) :
    (Chat.load_messages (GroupChat.loadRows gc db [])
        (some (Chat.save_messages none res.rows)) = .ok [] ∧
     Chat.save_messages (some res.rows) [] = res.rows) ∧
    (Chat.load_messages (IndividualChat.load_messages ic db)
        (some (Chat.save_messages none rows1)) = .ok [] ∧
     Chat.save_messages (some rows1) [] = rows1) := by
  constructor
  · -- group pipeline
    obtain ⟨cmap, ids, log, hcm, hci, hms⟩ := group_load_messages_inv hg
    have htimes := mapSenders_times hms
    obtain ⟨last, hlast⟩ :=
      Option.isSome_iff_exists.mp (List.getLast?_isSome.mpr hgne)
    have hmap : (res.rows.map MsgRow.time).getLast? =
        ((GroupChat.get_message_df db ids none).map MsgRow.time).getLast? :=
      by rw [htimes]
    rw [List.getLast?_map, List.getLast?_map, hlast] at hmap
    cases hdlast : (GroupChat.get_message_df db ids none).getLast? with
    | none => rw [hdlast] at hmap; cases hmap
    | some dlast =>
      rw [hdlast] at hmap
      have hdt : last.time = dlast.time := by
        simpa using hmap
      have hbound : ∀ x ∈ GroupChat.get_message_df db ids none,
          x.time ≤ last.time := by
        intro x hx
        have := pairwise_le_getLast MsgRow.time
          (group_df_pairwise db ids none) hdlast x hx
        omega
      have hdf2 : GroupChat.get_message_df db ids (some last.time) = [] := by
        rw [group_df_since]
        apply List.filter_eq_nil_iff.mpr
        intro a ha
        have := hbound a ha
        simp only [decide_eq_true_eq]
        omega
      have hrun2 : GroupChat.load_messages gc db [] (some last.time) =
          .ok { rows := [], cache := [], warn := none, log := [] } := by
        simp only [GroupChat.load_messages, hcm, hci, hdf2]
        rfl
      have hsv : Chat.save_messages none res.rows = res.rows := rfl
      constructor
      · rw [hsv]
        simp only [Chat.load_messages, hlast, GroupChat.loadRows, hrun2]
        rfl
      · simp [Chat.save_messages]
  · -- individual pipeline
    obtain ⟨ids2, hci2, hrows⟩ := ind_load_messages_inv hi
    obtain ⟨last, hlast⟩ :=
      Option.isSome_iff_exists.mp (List.getLast?_isSome.mpr hine)
    have htimes : rows1.map MsgRow.time =
        (IndividualChat.get_message_df db ids2 none).map IndRow.time := by
      rw [hrows, List.map_map]
      rfl
    have hmap : (rows1.map MsgRow.time).getLast? =
        ((IndividualChat.get_message_df db ids2 none).map
          IndRow.time).getLast? := by rw [htimes]
    rw [List.getLast?_map, List.getLast?_map, hlast] at hmap
    cases hdlast :
        (IndividualChat.get_message_df db ids2 none).getLast? with
    | none => rw [hdlast] at hmap; cases hmap
    | some dlast =>
      rw [hdlast] at hmap
      have hdt : last.time = dlast.time := by
        simpa using hmap
      have hbound : ∀ x ∈ IndividualChat.get_message_df db ids2 none,
          x.time ≤ last.time := by
        intro x hx
        have := pairwise_le_getLast IndRow.time
          (ind_df_pairwise db ids2 none) hdlast x hx
        omega
      have hdf2 : IndividualChat.get_message_df db ids2 (some last.time) =
          [] := by
        rw [ind_df_since]
        apply List.filter_eq_nil_iff.mpr
        intro a ha
        have := hbound a ha
        simp only [decide_eq_true_eq]
        omega
      have hrun2 : IndividualChat.load_messages ic db (some last.time) =
          .ok [] := by
        simp only [IndividualChat.load_messages, hci2, hdf2]
        rfl
      have hsv : Chat.save_messages none rows1 = rows1 := rfl
      constructor
      · rw [hsv]
        simp only [Chat.load_messages, hlast, hrun2]
      · simp [Chat.save_messages]

/-- Witness for C2 at a concrete database. -/
theorem C2_idempotent_merge_witness :
    (Chat.load_messages (GroupChat.loadRows gcC2w dbC2w [])
        (some (Chat.save_messages none resC2w.rows)) = .ok [] ∧
     Chat.save_messages (some resC2w.rows) [] = resC2w.rows) ∧
    (Chat.load_messages (IndividualChat.load_messages icC2w dbC2w)
        (some (Chat.save_messages none
          [{ sender := "Ann", text := "hi", time := 5, type := 0 }])) =
        .ok [] ∧
     Chat.save_messages
        (some [{ sender := "Ann", text := "hi", time := 5, type := 0 }]) [] =
       [{ sender := "Ann", text := "hi", time := 5, type := 0 }]) :=
  C2_idempotent_merge gcC2w icC2w dbC2w resC2w
    [{ sender := "Ann", text := "hi", time := 5, type := 0 }]
    rfl (by decide) rfl (by decide)

/-! Section: Association-list lemmas -/

theorem assocFind_assocSet (m : List (String × String)) (k v k' : String) :
    assocFind (assocSet m k v) k' =
      if k == k' then some v else assocFind m k' := by
  induction m with
  | nil => rfl
  | cons kv t ih =>
    obtain ⟨k0, v0⟩ := kv
    simp only [assocSet]
    by_cases h0 : k0 == k
    · rw [if_pos h0]
      have hk : k0 = k := by simpa using h0
      subst hk
      by_cases h1 : k0 == k' <;> simp [assocFind, h1]
    · rw [if_neg h0]
      by_cases h1 : k0 == k'
      · have e1 : k0 = k' := by simpa using h1
        have e2 : ¬ ((k == k') = true) := by
          intro hkk
          have e3 : k = k' := by simpa using hkk
          apply h0
          rw [e3, ← e1]
          simp
        simp [assocFind, h1, e2]
      · simp only [assocFind]
        rw [if_neg h1, if_neg h1, ih]

theorem assocFind_append_some {a : List (String × String)}
    (b : List (String × String)) {k v : String}
    (h : assocFind a k = some v) : assocFind (a ++ b) k = some v := by
  induction a with
  | nil => cases h
  | cons kv t ih =>
    obtain ⟨k0, v0⟩ := kv
    rw [List.cons_append]
    simp only [assocFind] at h ⊢
    by_cases h0 : k0 == k
    · rwa [if_pos h0] at h ⊢
    · rw [if_neg h0] at h ⊢
      exact ih h

theorem assocFind_append_none {a : List (String × String)}
    (b : List (String × String)) {k : String}
    (h : assocFind a k = none) : assocFind (a ++ b) k = assocFind b k := by
  induction a with
  | nil => rfl
  | cons kv t ih =>
    obtain ⟨k0, v0⟩ := kv
    rw [List.cons_append]
    simp only [assocFind] at h ⊢
    by_cases h0 : k0 == k
    · rw [if_pos h0] at h; cases h
    · rw [if_neg h0] at h ⊢
      exact ih h

theorem assocFind_of_append_none {a b : List (String × String)} {k : String}
    (h : assocFind (a ++ b) k = none) : assocFind a k = none := by
  cases haf : assocFind a k with
  | none => rfl
  | some v => rw [assocFind_append_some b haf] at h; cases h

theorem assocSet_of_none {m : List (String × String)} {k : String}
    (v : String) (h : assocFind m k = none) :
    assocSet m k v = m ++ [(k, v)] := by
  induction m with
  | nil => rfl
  | cons kv t ih =>
    obtain ⟨k0, v0⟩ := kv
    simp only [assocFind] at h
    by_cases h0 : k0 == k
    · rw [if_pos h0] at h; cases h
    · rw [if_neg h0] at h
      simp only [assocSet]
      rw [if_neg h0, List.cons_append, ih h]

theorem assocFind_addMemberIds (ids : List String) :
    ∀ (cmap : List (String × String)) (name k : String),
      assocFind (addMemberIds cmap ids name) k =
        if k ∈ ids then some name else assocFind cmap k := by
  induction ids with
  | nil =>
    intro cmap name k
    simp [addMemberIds]
  | cons i rest ih =>
    intro cmap name k
    have h1 : addMemberIds cmap (i :: rest) name =
        addMemberIds (assocSet cmap i name) rest name := rfl
    rw [h1, ih, assocFind_assocSet]
    by_cases hr : k ∈ rest
    · simp [hr]
    · by_cases hik : i == k
      · have hik2 : i = k := by simpa using hik
        simp [hr, hik, hik2]
      · have hik2 : ¬ i = k := by simpa using hik
        have hki : ¬ k = i := fun hh => hik2 hh.symm
        simp [hr, hik, hki]

/-! Section: Building the contact-ID map (claim C3) -/

theorem buildMapAux_skip (db : ChatDb) :
    ∀ (members : List Contact) (cmap cmapF : List (String × String))
      (id : String),
      buildMapAux db members cmap = .ok cmapF →
      (∀ mem ∈ members, ∀ ids,
        Contact.get_contact_ids mem db = .ok ids → id ∉ ids) →
      assocFind cmapF id = assocFind cmap id := by
  intro members
  induction members with
  | nil =>
    intro cmap cmapF id h hskip
    simp only [buildMapAux, Except.ok.injEq] at h
    rw [← h]
  | cons mem rest ih =>
    intro cmap cmapF id h hskip
    cases hids : Contact.get_contact_ids mem db with
    | error e =>
      simp only [buildMapAux, hids] at h
      exact Except.noConfusion h
    | ok ids =>
      simp only [buildMapAux, hids] at h
      rw [ih _ _ _ h (fun m2 hm2 => hskip m2 (List.mem_cons_of_mem _ hm2)),
        assocFind_addMemberIds,
        if_neg (hskip mem (List.mem_cons_self _ _) ids hids)]

theorem buildMapAux_append (db : ChatDb) :
    ∀ (pre post : List Contact) (cmap r : List (String × String)),
      buildMapAux db (pre ++ post) cmap = .ok r →
      ∃ mid, buildMapAux db pre cmap = .ok mid ∧
        buildMapAux db post mid = .ok r := by
  intro pre
  induction pre with
  | nil => intro post cmap r h; exact ⟨cmap, rfl, h⟩
  | cons mem rest ih =>
    intro post cmap r h
    rw [List.cons_append] at h
    cases hids : Contact.get_contact_ids mem db with
    | error e =>
      simp only [buildMapAux, hids] at h
      exact Except.noConfusion h
    | ok ids =>
      simp only [buildMapAux, hids] at h
      obtain ⟨mid, h1, h2⟩ := ih post _ r h
      refine ⟨mid, ?_, h2⟩
      simp only [buildMapAux, hids]
      exact h1

/-- C3: the sender map seeds identifier "0" with the display name of the owner
and maps every contact ID of each member to the name of that member, later
members overwriting earlier ones on collision; and on the section-8
scenario (members Alice and Bob, messages from identifiers
0/1 (Alice)/2 (Bob)/6 (the second ID of Alice) in timestamp order) the output
sender column is exactly `["You", "Alice", "Bob", "Alice"]`. -/
theorem C3_sender_map (gc : GroupChat) (db : ChatDb)
    (cmap : List (String × String)) (pre post : List Contact) (mem : Contact)
    (id : String) (ids : List String)
    (hmem : gc.members = pre ++ mem :: post)
    (hok : buildContactIdMap gc db = .ok cmap)
    (hid : Contact.get_contact_ids mem db = .ok ids) (hin : id ∈ ids)
    (hpost : ∀ m2 ∈ post, ∀ ids2,
      Contact.get_contact_ids m2 db = .ok ids2 → id ∉ ids2) :
    assocFind cmap id = some mem.name ∧
    ((∀ m2 ∈ gc.members, ∀ ids2,
        Contact.get_contact_ids m2 db = .ok ids2 → "0" ∉ ids2) →
      assocFind cmap "0" = some gc.user_name) ∧
    (GroupChat.load_messages gcName dbMain [] none).map
      (fun res => res.rows.map MsgRow.sender) =
      .ok ["You", "Alice", "Bob", "Alice"] := by
  refine ⟨?_, ?_, rfl⟩
  · unfold buildContactIdMap at hok
    rw [hmem] at hok
    obtain ⟨mid, h1, h2⟩ := buildMapAux_append db pre (mem :: post) _ _ hok
    simp only [buildMapAux, hid] at h2
    rw [buildMapAux_skip db post _ _ id h2 hpost, assocFind_addMemberIds,
      if_pos hin]
  · intro hseed
    unfold buildContactIdMap at hok
    rw [buildMapAux_skip db gc.members [("0", gc.user_name)] cmap "0" hok
      hseed]
    rfl

/-- Witness for C3: in the scenario map, the first contact ID of Alice resolves
to "Alice". -/
theorem C3_sender_map_witness :
    assocFind [("0", "You"), ("1", "Alice"), ("4", "Alice"), ("6", "Alice"),
      ("2", "Bob")] "1" = some "Alice" :=
  (C3_sender_map gcName dbMain
    [("0", "You"), ("1", "Alice"), ("4", "Alice"), ("6", "Alice"),
      ("2", "Bob")]
    [] [bob] alice "1" ["1", "4", "6"] rfl rfl rfl (by decide)
    (by
      intro m2 hm2 ids2 hi2
      simp only [List.mem_singleton] at hm2
      subst hm2
      rw [show Contact.get_contact_ids bob dbMain = .ok ["2"] from rfl]
        at hi2
      cases hi2
      decide)).1

/-! Section: The sender-substitution run (claims C4 and C9) -/

theorem assocFind_mem {m : List (String × String)} {k v : String}
    (h : assocFind m k = some v) : (k, v) ∈ m := by
  induction m with
  | nil => cases h
  | cons kv t ih =>
    obtain ⟨k0, v0⟩ := kv
    simp only [assocFind] at h
    by_cases h0 : k0 == k
    · rw [if_pos h0] at h
      injection h with h1
      have h2 : k0 = k := by simpa using h0
      subst h2 h1
      exact List.mem_cons_self _ _
    · rw [if_neg h0] at h
      exact List.mem_cons_of_mem _ (ih h)

theorem senderLabel_truthy_some {cmap : List (String × String)} {db : ChatDb}
    {cache : List (String × String)} {sid name : String}
    (h : truthyFind cmap sid = some name) :
    senderLabel cmap db cache sid = .ok (name, cache, []) := by
  cases haf : assocFind cmap sid with
  | none =>
    simp only [truthyFind, haf] at h
    exact Option.noConfusion h
  | some v =>
    simp only [truthyFind, haf] at h
    by_cases hv : v == ""
    · rw [if_pos hv] at h
      exact Option.noConfusion h
    · rw [if_neg hv] at h
      injection h with h2
      subst h2
      simp only [senderLabel, haf]
      rw [if_neg hv]

theorem senderLabel_truthy_none {cmap : List (String × String)} {db : ChatDb}
    {cache : List (String × String)} {sid : String}
    (h : truthyFind cmap sid = none) :
    senderLabel cmap db cache sid =
      GroupChat.get_address_for_contact_id db cache sid := by
  cases haf : assocFind cmap sid with
  | none => simp only [senderLabel, haf]
  | some v =>
    simp only [truthyFind, haf] at h
    by_cases hv : v == ""
    · simp only [senderLabel, haf]
      rw [if_pos hv]
    · rw [if_neg hv] at h
      exact Option.noConfusion h

/-- Master characterization of one sender-substitution run: given that every
unmapped sender is either already cached or present in the `handle` table,
the run succeeds; the label of each row is `resolveLabel`; the cache grows by the
newly seen unknown identifiers (`extra`), preserving correctness of cached
addresses; the handle-table lookups (`extra.map Prod.fst`) are pairwise
distinct and performed only for identifiers that are unmapped (or mapped to
a falsy name) and not already cached; and no lookup happens at all iff the
sender of every row was mapped or cached. -/
theorem mapSenders_spec (cmap : List (String × String)) (db : ChatDb) :
    ∀ (rows : List MsgRow) (cache0 : List (String × String)),
      CacheOk db cache0 →
      (∀ r ∈ rows, truthyFind cmap r.sender = none →
        assocFind cache0 r.sender ≠ none ∨
          (db.handle.find? fun h => Nat.repr h.rowid == r.sender).isSome) →
      ∃ extra : List (String × String),
        mapSenders cmap db rows cache0 =
          .ok (rows.map fun r =>
                { r with sender := resolveLabel cmap db r.sender },
               cache0 ++ extra, extra.map Prod.fst) ∧
        CacheOk db (cache0 ++ extra) ∧
        (extra.map Prod.fst).Nodup ∧
        (∀ id ∈ extra.map Prod.fst,
          truthyFind cmap id = none ∧ assocFind cache0 id = none) ∧
        (extra = [] ↔ ∀ r ∈ rows,
          truthyFind cmap r.sender ≠ none ∨
            assocFind cache0 r.sender ≠ none) := by
  intro rows
  induction rows with
  | nil =>
    intro cache0 hok hres
    refine ⟨[], by simp [mapSenders], by simpa using hok, by simp, by simp,
      by simp⟩
  | cons r rs ih =>
    intro cache0 hok hres
    cases htf : truthyFind cmap r.sender with
    | some name =>
      have hsl := @senderLabel_truthy_some cmap db cache0 r.sender name htf
      obtain ⟨extra, hrec, hok2, hnd, hprops, hiff⟩ :=
        ih cache0 hok (fun r2 hr2 => hres r2 (List.mem_cons_of_mem _ hr2))
      have hlab : resolveLabel cmap db r.sender = name := by
        unfold resolveLabel
        rw [htf]
      refine ⟨extra, ?_, hok2, hnd, hprops, ?_⟩
      · simp only [mapSenders, hsl, hrec, List.map_cons, List.nil_append,
          hlab]
      · rw [hiff]
        constructor
        · intro hall r2 hr2
          rcases List.mem_cons.mp hr2 with rfl | h2
          · left
            rw [htf]
            exact fun hh => Option.noConfusion hh
          · exact hall r2 h2
        · intro hall r2 hr2
          exact hall r2 (List.mem_cons_of_mem _ hr2)
    | none =>
      have hsl := @senderLabel_truthy_none cmap db cache0 r.sender htf
      cases hc0 : assocFind cache0 r.sender with
      | some addr =>
        have hga : GroupChat.get_address_for_contact_id db cache0 r.sender =
            .ok (addr, cache0, []) := by
          simp only [GroupChat.get_address_for_contact_id, hc0]
        have haddr : addr = handleAddr db r.sender :=
          hok (r.sender, addr) (assocFind_mem hc0)
        have hlab : resolveLabel cmap db r.sender = addr := by
          unfold resolveLabel
          rw [htf]
          exact haddr.symm
        obtain ⟨extra, hrec, hok2, hnd, hprops, hiff⟩ :=
          ih cache0 hok (fun r2 hr2 => hres r2 (List.mem_cons_of_mem _ hr2))
        refine ⟨extra, ?_, hok2, hnd, hprops, ?_⟩
        · simp only [mapSenders, hsl, hga, hrec, List.map_cons,
            List.nil_append, hlab]
        · rw [hiff]
          constructor
          · intro hall r2 hr2
            rcases List.mem_cons.mp hr2 with rfl | h2
            · right
              rw [hc0]
              exact fun hh => Option.noConfusion hh
            · exact hall r2 h2
          · intro hall r2 hr2
            exact hall r2 (List.mem_cons_of_mem _ hr2)
      | none =>
        rcases hres r (List.mem_cons_self _ _) htf with hcached | hfound
        · exact absurd hc0 hcached
        cases hfind : db.handle.find?
            (fun h => Nat.repr h.rowid == r.sender) with
        | none => rw [hfind] at hfound; cases hfound
        | some hrow =>
          have hga : GroupChat.get_address_for_contact_id db cache0
              r.sender =
              .ok (hrow.id, assocSet cache0 r.sender hrow.id, [r.sender]) :=
            by simp only [GroupChat.get_address_for_contact_id, hc0, hfind]
          have hset : assocSet cache0 r.sender hrow.id =
              cache0 ++ [(r.sender, hrow.id)] := assocSet_of_none _ hc0
          have hha : handleAddr db r.sender = hrow.id := by
            unfold handleAddr
            rw [hfind]
          have hok1 : CacheOk db (cache0 ++ [(r.sender, hrow.id)]) := by
            intro kv hkv
            rcases List.mem_append.mp hkv with h1 | h2
            · exact hok kv h1
            · simp only [List.mem_singleton] at h2
              rw [h2, hha]
          have hres2 : ∀ r2 ∈ rs, truthyFind cmap r2.sender = none →
              assocFind (cache0 ++ [(r.sender, hrow.id)]) r2.sender ≠
                none ∨
              (db.handle.find? fun h =>
                Nat.repr h.rowid == r2.sender).isSome := by
            intro r2 hr2 htf2
            rcases hres r2 (List.mem_cons_of_mem _ hr2) htf2 with h1 | h2
            · left
              intro hnone
              exact h1 (assocFind_of_append_none hnone)
            · right
              exact h2
          obtain ⟨extra2, hrec, hok2, hnd, hprops, hiff⟩ :=
            ih (cache0 ++ [(r.sender, hrow.id)]) hok1 hres2
          have hlab : resolveLabel cmap db r.sender = hrow.id := by
            unfold resolveLabel
            rw [htf]
            exact hha
          refine ⟨(r.sender, hrow.id) :: extra2, ?_, ?_, ?_, ?_, ?_⟩
          · simp only [mapSenders, hsl, hga, hset, hrec, List.map_cons,
              hlab, List.singleton_append, List.append_assoc]
          · have he : cache0 ++ (r.sender, hrow.id) :: extra2 =
                (cache0 ++ [(r.sender, hrow.id)]) ++ extra2 := by simp
            rw [he]
            exact hok2
          · simp only [List.map_cons]
            refine List.nodup_cons.mpr ⟨?_, hnd⟩
            intro hmem
            obtain ⟨_, hfindnone⟩ := hprops r.sender hmem
            have hsome : assocFind (cache0 ++ [(r.sender, hrow.id)])
                r.sender = some hrow.id := by
              rw [assocFind_append_none _ hc0]
              simp [assocFind]
            rw [hsome] at hfindnone
            cases hfindnone
          · intro id hid
            simp only [List.map_cons, List.mem_cons] at hid
            rcases hid with rfl | hid2
            · exact ⟨htf, hc0⟩
            · obtain ⟨ht2, hf2⟩ := hprops id hid2
              exact ⟨ht2, assocFind_of_append_none hf2⟩
          · constructor
            · intro hcontra
              cases hcontra
            · intro hall
              exfalso
              rcases hall r (List.mem_cons_self _ _) with h1 | h2
              · exact h1 htf
              · exact h2 hc0

/-- C4: if the sender identifier of every message is either declared or present
in the `handle` table, a group-chat extraction from a fresh instance never
fails: unknown senders are labelled with the raw address stored in `handle`,
at most one aggregate warning is emitted for the whole run — carrying the
count of distinct unknown identifiers and their resolved addresses — and no
warning is emitted when every sender is declared.  The section-8 scenario
(undeclared sender identifier 50) yields the label `unknown@email.com` and
a single warning naming exactly that address. -/
theorem C4_unknown_senders (gc : GroupChat) (db : ChatDb)
    (since : Option Nat) (cmap : List (String × String))
    (chat_ids : List String)
    (hcm : buildContactIdMap gc db = .ok cmap)
    (hci : GroupChat.get_chat_ids gc db = .ok chat_ids)
    (hres : ∀ r ∈ GroupChat.get_message_df db chat_ids since,
      truthyFind cmap r.sender = none →
      (db.handle.find? fun h => Nat.repr h.rowid == r.sender).isSome) :
    (∃ res : LoadResult,
      GroupChat.load_messages gc db [] since = .ok res ∧
      res.rows = (GroupChat.get_message_df db chat_ids since).map
        (fun r => { r with sender := resolveLabel cmap db r.sender }) ∧
      (res.cache = [] ↔ ∀ r ∈ GroupChat.get_message_df db chat_ids since,
        truthyFind cmap r.sender ≠ none) ∧
      (res.cache = [] → res.warn = none) ∧
      (res.cache ≠ [] → res.warn =
        some { count := res.cache.length,
               addresses := res.cache.map Prod.snd }) ∧
      (∀ kv ∈ res.cache, kv.2 = handleAddr db kv.1)) ∧
    (GroupChat.load_messages gcName2 dbMain [] none).map
      (fun res => res.rows.map MsgRow.sender) =
      .ok ["You", "Alice", "Bob", "unknown@email.com"] ∧
    (GroupChat.load_messages gcName2 dbMain [] none).map LoadResult.warn =
      .ok (some { count := 1, addresses := ["unknown@email.com"] }) := by
  refine ⟨?_, rfl, rfl⟩
  obtain ⟨extra, hms, hok2, hnd, hprops, hiff⟩ :=
    mapSenders_spec cmap db (GroupChat.get_message_df db chat_ids since) []
      (by intro kv hkv; cases hkv)
      (by intro r hr htf; exact Or.inr (hres r hr htf))
  refine ⟨{ rows := (GroupChat.get_message_df db chat_ids since).map
              (fun r => { r with sender := resolveLabel cmap db r.sender }),
            cache := extra,
            warn := if 0 < extra.length then
                some { count := extra.length,
                       addresses := extra.map Prod.snd }
              else none,
            log := extra.map Prod.fst }, ?_, rfl, ?_, ?_, ?_, ?_⟩
  · simp only [GroupChat.load_messages, hcm, hci, hms, List.nil_append]
  · show extra = [] ↔ ∀ r ∈ GroupChat.get_message_df db chat_ids since,
      truthyFind cmap r.sender ≠ none
    rw [hiff]
    constructor
    · intro hall r hr
      rcases hall r hr with h1 | h2
      · exact h1
      · exact absurd rfl h2
    · intro hall r hr
      exact Or.inl (hall r hr)
  · intro hempty
    have h2 : extra = [] := by simpa using hempty
    simp [h2]
  · intro hne
    have h2 : extra ≠ [] := by simpa using hne
    have h3 : 0 < extra.length := List.length_pos.mpr h2
    simp [h3]
  · intro kv hkv
    exact hok2 kv (by simpa using hkv)

/-- Witness for C4: the section-8 unknown-sender scenario, obtained by
instantiating the theorem at the concrete database. -/
theorem C4_unknown_senders_witness :
    (GroupChat.load_messages gcName2 dbMain [] none).map
      (fun res => res.rows.map MsgRow.sender) =
      .ok ["You", "Alice", "Bob", "unknown@email.com"] :=
  (C4_unknown_senders gcName2 dbMain none
    [("0", "You"), ("1", "Alice"), ("4", "Alice"), ("6", "Alice"),
      ("2", "Bob")]
    ["2"] rfl rfl (by decide)).2.1

/-- C9 (amended): the unknown-address cache is scoped to a single
`GroupChat` instance, starts empty at construction, and persists across
extraction runs (`cache0` is the instance state at entry and the run only
appends to it — it is NOT reset at the start of a run); within one run the
resolution of a sender identifier to its address is memoized: each
identifier is looked up in the `handle` table at most once (the lookup log
is duplicate-free), and only identifiers that are absent from (or mapped to
a falsy name in) the declared-contact map and not already cached are looked
up at all. -/
theorem C9_cache_memoization (gc : GroupChat) (db : ChatDb)
    (since : Option Nat) (cache0 cmap : List (String × String))
    (chat_ids : List String)
    (hcm : buildContactIdMap gc db = .ok cmap)
    (hci : GroupChat.get_chat_ids gc db = .ok chat_ids)
    (hc0 : CacheOk db cache0)
    (hres : ∀ r ∈ GroupChat.get_message_df db chat_ids since,
      truthyFind cmap r.sender = none →
      assocFind cache0 r.sender ≠ none ∨
        (db.handle.find? fun h => Nat.repr h.rowid == r.sender).isSome) :
    ∃ res : LoadResult,
      GroupChat.load_messages gc db cache0 since = .ok res ∧
      res.log.Nodup ∧
      (∀ id ∈ res.log,
        truthyFind cmap id = none ∧ assocFind cache0 id = none) ∧
      ∃ extra, res.cache = cache0 ++ extra ∧
        res.log = extra.map Prod.fst := by
  obtain ⟨extra, hms, hok2, hnd, hprops, hiff⟩ :=
    mapSenders_spec cmap db (GroupChat.get_message_df db chat_ids since)
      cache0 hc0 hres
  refine ⟨{ rows := (GroupChat.get_message_df db chat_ids since).map
              (fun r => { r with sender := resolveLabel cmap db r.sender }),
            cache := cache0 ++ extra,
            warn := if 0 < (cache0 ++ extra).length then
                some { count := (cache0 ++ extra).length,
                       addresses := (cache0 ++ extra).map Prod.snd }
              else none,
            log := extra.map Prod.fst }, ?_, hnd, hprops,
    extra, rfl, rfl⟩
  simp only [GroupChat.load_messages, hcm, hci, hms]

/-- C9 counterexample: the cache is NOT reset at the start of each
extraction run.  Run 1 populates the instance cache with
`("1", "old@x")`; run 2 on the same instance (cache carried over) performs
no handle lookup at all and labels the sender with the stale cached address
`old@x`, whereas a run with a reset (empty) cache returns `new@x` — so the
per-run reset in the claim is false for the second run of one instance. -/
theorem C9_counterexample :
    (GroupChat.load_messages gcC9 dbC9a [] none).map LoadResult.cache =
      .ok [("1", "old@x")] ∧
    (GroupChat.load_messages gcC9 dbC9b [("1", "old@x")] none).map
      (fun res => res.rows.map MsgRow.sender) = .ok ["old@x"] ∧
    (GroupChat.load_messages gcC9 dbC9b [("1", "old@x")] none).map
      LoadResult.log = .ok [] ∧
    (GroupChat.load_messages gcC9 dbC9b [] none).map
      (fun res => res.rows.map MsgRow.sender) = .ok ["new@x"] ∧
    ("old@x" : String) ≠ "new@x" :=
  ⟨rfl, rfl, rfl, rfl, by decide⟩

/-- Witness for C9 at the concrete scenario database with a fresh cache. -/
theorem C9_cache_memoization_witness :
    ∃ res : LoadResult,
      GroupChat.load_messages gcName2 dbMain [] none = .ok res ∧
      res.log.Nodup ∧
      (∀ id ∈ res.log,
        truthyFind [("0", "You"), ("1", "Alice"), ("4", "Alice"),
          ("6", "Alice"), ("2", "Bob")] id = none ∧
          assocFind [] id = none) ∧
      ∃ extra, res.cache = [] ++ extra ∧ res.log = extra.map Prod.fst :=
  C9_cache_memoization gcName2 dbMain none []
    [("0", "You"), ("1", "Alice"), ("4", "Alice"), ("6", "Alice"),
      ("2", "Bob")]
    ["2"] rfl rfl (by intro kv hkv; cases hkv) (by decide)

/-! Section: Conversation location (claim C5) -/

theorem chatIdsAux_ok (db : ChatDb) :
    ∀ (addresses ids : List String),
      chatIdsAux db addresses = .ok ids →
      ids = (addresses.map (chatIdsForAddress db)).flatten ∧
      ∀ a ∈ addresses, chatIdsForAddress db a ≠ [] := by
  intro addresses
  induction addresses with
  | nil =>
    intro ids h
    simp only [chatIdsAux, Except.ok.injEq] at h
    exact ⟨h.symm, by intro a ha; cases ha⟩
  | cons a rest ih =>
    intro ids h
    by_cases hemp : (chatIdsForAddress db a).isEmpty
    · simp only [chatIdsAux, hemp, if_true] at h
      exact Except.noConfusion h
    · cases hrec : chatIdsAux db rest with
      | error e =>
        simp only [chatIdsAux, hemp, hrec] at h
        exact Except.noConfusion h
      | ok more =>
        simp only [chatIdsAux, hemp, hrec, Bool.false_eq_true, if_false,
          Except.ok.injEq] at h
        obtain ⟨hv, hall⟩ := ih more hrec
        refine ⟨?_, ?_⟩
        · rw [← h, hv]
          simp
        · intro a2 ha2
          rcases List.mem_cons.mp ha2 with rfl | h2
          · intro hnil
            rw [hnil] at hemp
            exact hemp rfl
          · exact hall a2 h2

theorem chatIdsAux_total (db : ChatDb) :
    ∀ addresses : List String,
      (∃ ids, chatIdsAux db addresses = .ok ids) ∨
      (∃ msg, chatIdsAux db addresses = .error (.valueError msg)) := by
  intro addresses
  induction addresses with
  | nil => exact Or.inl ⟨[], rfl⟩
  | cons a rest ih =>
    by_cases hemp : (chatIdsForAddress db a).isEmpty
    · refine Or.inr ⟨"chat not found in the chat DB.", ?_⟩
      simp only [chatIdsAux, hemp, if_true]
    · rcases ih with ⟨ids, hok⟩ | ⟨msg, herr⟩
      · refine Or.inl ⟨chatIdsForAddress db a ++ ids, ?_⟩
        simp only [chatIdsAux, hemp, hok, Bool.false_eq_true, if_false]
      · refine Or.inr ⟨msg, ?_⟩
        simp only [chatIdsAux, hemp, herr, Bool.false_eq_true, if_false]

/-- C5: locating a conversation either returns a non-empty list of
conversation identifiers or raises `ValueError` — never an empty list.
For an individual descriptor the result is the concatenation, in address
order and without deduplication, of the identifiers matched by containment
for each counterpart address; the section-8 scenario (counterpart with two
addresses matching identifiers 3, 6 and 7) returns exactly
`["3", "6", "7"]`. -/
theorem C5_locate_nonempty (gc : GroupChat) (ic : IndividualChat)
    (db : ChatDb) (haddr : ic.other_person.addresses ≠ []) :
    (∀ ids, GroupChat.get_chat_ids gc db = .ok ids → ids ≠ []) ∧
    ((∃ ids, GroupChat.get_chat_ids gc db = .ok ids) ∨
      (∃ msg, GroupChat.get_chat_ids gc db = .error (.valueError msg))) ∧
    (∀ ids, IndividualChat.get_chat_ids ic db = .ok ids →
      ids ≠ [] ∧
      ids = (ic.other_person.addresses.map (chatIdsForAddress db)).flatten) ∧
    ((∃ ids, IndividualChat.get_chat_ids ic db = .ok ids) ∨
      (∃ msg, IndividualChat.get_chat_ids ic db = .error (.valueError msg))) ∧
    IndividualChat.get_chat_ids icAlice dbMain = .ok ["3", "6", "7"] := by
  refine ⟨?_, ?_, ?_, chatIdsAux_total db _, rfl⟩
  · intro ids h
    by_cases hemp :
        ((db.chat.filter fun c => c.display_name == gc.name).map fun c =>
          Nat.repr c.rowid).isEmpty
    · simp only [GroupChat.get_chat_ids, hemp, if_true] at h
      exact Except.noConfusion h
    · simp only [GroupChat.get_chat_ids, hemp, Bool.false_eq_true, if_false,
        Except.ok.injEq] at h
      rw [← h]
      intro hnil
      rw [hnil] at hemp
      exact hemp rfl
  · by_cases hemp :
        ((db.chat.filter fun c => c.display_name == gc.name).map fun c =>
          Nat.repr c.rowid).isEmpty
    · refine Or.inr ⟨"chat not found in the chat DB.", ?_⟩
      simp only [GroupChat.get_chat_ids, hemp, if_true]
    · refine Or.inl
        ⟨(db.chat.filter fun c => c.display_name == gc.name).map fun c =>
          Nat.repr c.rowid, ?_⟩
      simp only [GroupChat.get_chat_ids, hemp, Bool.false_eq_true, if_false]
  · intro ids h
    obtain ⟨hv, hall⟩ := chatIdsAux_ok db ic.other_person.addresses ids h
    refine ⟨?_, hv⟩
    cases haddrs : ic.other_person.addresses with
    | nil => exact absurd haddrs haddr
    | cons a rest =>
      rw [haddrs] at hv hall
      intro hnil
      rw [hv] at hnil
      simp only [List.map_cons, List.flatten_cons] at hnil
      exact hall a (List.mem_cons_self _ _)
        (List.append_eq_nil.mp hnil).1

/-- Witness for C5: the concrete scenario instance. -/
theorem C5_locate_nonempty_witness :
    IndividualChat.get_chat_ids icAlice dbMain = .ok ["3", "6", "7"] :=
  (C5_locate_nonempty gcName icAlice dbMain (by decide)).2.2.2.2

theorem clean_phone_ok_iff (s : String) :
    (∃ r, Contact.clean_and_verify_phone_number s = .ok r) ↔
      10 ≤ digitCount s ∧ digitCount s ≤ 15 := by
  have hlen : (digitsOf s).length = digitCount s := rfl
  constructor
  · rintro ⟨r, hr⟩
    simp only [Contact.clean_and_verify_phone_number] at hr
    by_cases h1 : (digitsOf s).length < 10
    · rw [if_pos h1] at hr
      exact Except.noConfusion hr
    · rw [if_neg h1] at hr
      by_cases h2 : (digitsOf s).length > 15
      · rw [if_pos h2] at hr
        exact Except.noConfusion hr
      · omega
  · rintro ⟨h1, h2⟩
    refine ⟨digitsOf s, ?_⟩
    simp only [Contact.clean_and_verify_phone_number]
    rw [if_neg (by omega), if_neg (by omega)]

theorem clean_phone_ok_val (s : String) (h1 : 10 ≤ digitCount s)
    (h2 : digitCount s ≤ 15) :
    Contact.clean_and_verify_phone_number s = .ok (digitsOf s) := by
  have hlen : (digitsOf s).length = digitCount s := rfl
  simp only [Contact.clean_and_verify_phone_number]
  rw [if_neg (by omega), if_neg (by omega)]

theorem clean_addresses_ok (addrs : List String) :
    ∀ va, Contact.clean_and_verify_addresses addrs = .ok va →
      va = addrs.map cleanSpecFn ∧
      ∀ a ∈ addrs, hasAtSign a ∨
        (10 ≤ digitCount a ∧ digitCount a ≤ 15) := by
  induction addrs with
  | nil =>
    intro va h
    simp only [Contact.clean_and_verify_addresses, Except.ok.injEq] at h
    exact ⟨h.symm, by intro a ha; cases ha⟩
  | cons a rest ih =>
    intro va h
    by_cases hat : hasAtSign a
    · cases hrec : Contact.clean_and_verify_addresses rest with
      | error e =>
        simp only [Contact.clean_and_verify_addresses, hat, if_true,
          hrec] at h
        exact Except.noConfusion h
      | ok more =>
        simp only [Contact.clean_and_verify_addresses, hat, if_true,
          hrec, Except.ok.injEq] at h
        obtain ⟨hv, hall⟩ := ih more hrec
        refine ⟨?_, ?_⟩
        · rw [← h, hv]
          simp [cleanSpecFn, hat]
        · intro a2 ha2
          rcases List.mem_cons.mp ha2 with rfl | h2
          · exact Or.inl hat
          · exact hall a2 h2
    · cases hphone : Contact.clean_and_verify_phone_number a with
      | error e =>
        simp only [Contact.clean_and_verify_addresses, hat,
          Bool.false_eq_true, if_false, hphone] at h
        exact Except.noConfusion h
      | ok cleaned =>
        have hrange : 10 ≤ digitCount a ∧ digitCount a ≤ 15 :=
          (clean_phone_ok_iff a).mp ⟨cleaned, hphone⟩
        have hval : cleaned = digitsOf a := by
          rw [clean_phone_ok_val a hrange.1 hrange.2] at hphone
          injection hphone with h2
          exact h2.symm
        cases hrec : Contact.clean_and_verify_addresses rest with
        | error e =>
          simp only [Contact.clean_and_verify_addresses, hat,
            Bool.false_eq_true, if_false, hphone, hrec] at h
          exact Except.noConfusion h
        | ok more =>
          simp only [Contact.clean_and_verify_addresses, hat,
            Bool.false_eq_true, if_false, hphone, hrec,
            Except.ok.injEq] at h
          obtain ⟨hv, hall⟩ := ih more hrec
          refine ⟨?_, ?_⟩
          · rw [← h, hv, hval]
            simp [cleanSpecFn, hat]
          · intro a2 ha2
            rcases List.mem_cons.mp ha2 with rfl | h2
            · exact Or.inr hrange
            · exact hall a2 h2

theorem clean_addresses_error (addrs : List String)
    (hbad : ∃ a ∈ addrs, ¬ hasAtSign a ∧
      ¬ (10 ≤ digitCount a ∧ digitCount a ≤ 15)) :
    ∃ msg, Contact.clean_and_verify_addresses addrs =
      .error (.valueError msg) := by
  induction addrs with
  | nil =>
    obtain ⟨a, ha, _⟩ := hbad
    cases ha
  | cons a rest ih =>
    obtain ⟨a0, ha0, hnat, hnrange⟩ := hbad
    rcases List.mem_cons.mp ha0 with rfl | hmem
    · have hfail : ∀ r, Contact.clean_and_verify_phone_number a0 ≠ .ok r := by
        intro r hr
        exact hnrange ((clean_phone_ok_iff a0).mp ⟨r, hr⟩)
      cases hphone : Contact.clean_and_verify_phone_number a0 with
      | ok r => exact absurd hphone (hfail r)
      | error e =>
        have hmsg : ∃ msg, e = Err.valueError msg := by
          simp only [Contact.clean_and_verify_phone_number] at hphone
          by_cases h1 : (digitsOf a0).length < 10
          · rw [if_pos h1] at hphone
            injection hphone with h2
            exact ⟨"phone number is too short", h2.symm⟩
          · rw [if_neg h1] at hphone
            by_cases h2 : (digitsOf a0).length > 15
            · rw [if_pos h2] at hphone
              injection hphone with h3
              exact ⟨"phone number is too long", h3.symm⟩
            · rw [if_neg h2] at hphone
              exact Except.noConfusion hphone
        obtain ⟨msg, rfl⟩ := hmsg
        refine ⟨msg, ?_⟩
        simp only [Contact.clean_and_verify_addresses, hnat,
          Bool.false_eq_true, if_false, hphone]
    · by_cases hat : hasAtSign a
      · obtain ⟨msg, hrec⟩ := ih ⟨a0, hmem, hnat, hnrange⟩
        refine ⟨msg, ?_⟩
        simp only [Contact.clean_and_verify_addresses, hat, if_true, hrec]
      · cases hphone : Contact.clean_and_verify_phone_number a with
        | error e =>
          have hmsg : ∃ msg, e = Err.valueError msg := by
            simp only [Contact.clean_and_verify_phone_number] at hphone
            by_cases h1 : (digitsOf a).length < 10
            · rw [if_pos h1] at hphone
              injection hphone with h2
              exact ⟨"phone number is too short", h2.symm⟩
            · rw [if_neg h1] at hphone
              by_cases h2 : (digitsOf a).length > 15
              · rw [if_pos h2] at hphone
                injection hphone with h3
                exact ⟨"phone number is too long", h3.symm⟩
              · rw [if_neg h2] at hphone
                exact Except.noConfusion hphone
          obtain ⟨msg, rfl⟩ := hmsg
          refine ⟨msg, ?_⟩
          simp only [Contact.clean_and_verify_addresses, hat,
            Bool.false_eq_true, if_false, hphone]
        | ok cleaned =>
          obtain ⟨msg, hrec⟩ := ih ⟨a0, hmem, hnat, hnrange⟩
          refine ⟨msg, ?_⟩
          simp only [Contact.clean_and_verify_addresses, hat,
            Bool.false_eq_true, if_false, hphone, hrec]

/-- C6: phone-number validation succeeds iff the address has 10–15 digits
after stripping non-digits, and then returns exactly those digits in order;
`Contact` construction fails on an empty address list or any out-of-range
phone number, and accepts `@`-addresses unchanged (the validated address
list is the input list with phone numbers reduced to digits). -/
theorem C6_address_validation :
    (∀ s, (∃ r, Contact.clean_and_verify_phone_number s = .ok r) ↔
      10 ≤ digitCount s ∧ digitCount s ≤ 15) ∧
    (∀ s, 10 ≤ digitCount s → digitCount s ≤ 15 →
      Contact.clean_and_verify_phone_number s = .ok (digitsOf s)) ∧
    (∀ name, Contact.make name [] =
      .error (.valueError
        "at least 1 address must be provided for each contact")) ∧
    (∀ name addrs c, Contact.make name addrs = .ok c →
      addrs ≠ [] ∧ c.name = name ∧ c.addresses = addrs.map cleanSpecFn ∧
      ∀ a ∈ addrs, hasAtSign a ∨
        (10 ≤ digitCount a ∧ digitCount a ≤ 15)) ∧
    (∀ name addrs,
      (∃ a ∈ addrs, ¬ hasAtSign a ∧
        ¬ (10 ≤ digitCount a ∧ digitCount a ≤ 15)) →
      ∃ msg, Contact.make name addrs = .error (.valueError msg)) := by
  refine ⟨clean_phone_ok_iff, clean_phone_ok_val, fun name => rfl,
    ?_, ?_⟩
  · intro name addrs c h
    by_cases hemp : addrs.isEmpty
    · simp only [Contact.make, hemp, if_true] at h
      exact Except.noConfusion h
    · cases hclean : Contact.clean_and_verify_addresses addrs with
      | error e =>
        simp only [Contact.make, hemp, Bool.false_eq_true, if_false,
          hclean] at h
        exact Except.noConfusion h
      | ok va =>
        simp only [Contact.make, hemp, Bool.false_eq_true, if_false,
          hclean, Except.ok.injEq] at h
        obtain ⟨hv, hall⟩ := clean_addresses_ok addrs va hclean
        refine ⟨?_, ?_, ?_, hall⟩
        · intro hnil
          rw [hnil] at hemp
          exact hemp rfl
        · rw [← h]
        · rw [← h, hv]
  · intro name addrs hbad
    obtain ⟨msg, hclean⟩ := clean_addresses_error addrs hbad
    have hemp : ¬ addrs.isEmpty := by
      obtain ⟨a, ha, _⟩ := hbad
      cases addrs with
      | nil => cases ha
      | cons x t => simp
    refine ⟨msg, ?_⟩
    simp only [Contact.make, hemp, Bool.false_eq_true, if_false, hclean]

/-- Witness for C6 at concrete addresses. -/
theorem C6_address_validation_witness :
    Contact.clean_and_verify_phone_number "(123)456-7890" =
      .ok "1234567890" :=
  C6_address_validation.2.1 "(123)456-7890" (by decide) (by decide)

/-- C7 counterexample: the space character belongs to the character
class of the regex (`[!*\(\), ]`), so in the single message
`"look at this link: https://x.com/y nice"` the greedy match swallows the
trailing `" nice"` as part of the URL: the result is
`"look at this link: "`, not the claimed `"look at this link:  nice"`.
(The test suite of the repository holds `"nice"` in a separate row and expects
`"look at this link: "` for the link row.) -/
theorem C7_counterexample :
    remove_links [c7row "look at this link: https://x.com/y nice"] =
      [c7row "look at this link: "] ∧
    ("look at this link: " : String) ≠ "look at this link:  nice" := by
  constructor
  · decide
  · decide

/-- C7 (amended): `remove_links` strips URL substrings (scheme `http` or
`https` followed by a greedy run of the class characters, which include the
space) from `text` in place and never drops a row; text before the link is
preserved, but a space directly after the link does not terminate the
match, so in `"look at this link: https://x.com/y nice"` the trailing
`" nice"` is consumed together with the URL, yielding
`"look at this link: "`; `"github.com"` (no scheme) is left unchanged, and
a message that is exactly a link becomes empty. -/
theorem C7_remove_links (msgs : List MsgRow) :
    (remove_links msgs).length = msgs.length ∧
    (remove_links msgs).map (fun r => (r.sender, r.time, r.type)) =
      msgs.map (fun r => (r.sender, r.time, r.type)) ∧
    remove_links [c7row "look at this link: https://x.com/y nice"] =
      [c7row "look at this link: "] ∧
    remove_links [c7row "github.com"] = [c7row "github.com"] ∧
    remove_links [c7row "https://github.com/tommypraeger/textsGPT"] =
      [c7row ""] := by
  refine ⟨?_, ?_, by decide, by decide, by decide⟩
  · simp [remove_links]
  · simp [remove_links, List.map_map]

/-- C8 counterexample: for a name such as `"?"` that sanitizes to the empty
string, the path falls back to the salted process hash, so two derivations
of the same name in runs with different hash seeds (modelled by two hash
functions) produce different paths — the unqualified "two derivations from
the same name give the same path" is false exactly on the fallback
branch. -/
theorem C8_counterexample :
    friendly_name "?" = "" ∧
    Chat.create_data_dir (fun _ => 0) "?" = "data/0" ∧
    Chat.create_data_dir (fun _ => 1) "?" = "data/1" ∧
    Chat.create_data_dir (fun _ => 0) "?" ≠
      Chat.create_data_dir (fun _ => 1) "?" := by
  refine ⟨rfl, rfl, rfl, by decide⟩

/-- C8 (amended): the persistence path is derived deterministically from
the conversation name given the hash function of the process: whitespace runs
are replaced by underscores and remaining non-alphanumeric, non-underscore
characters removed; whenever that sanitization is non-empty the path is
`data/<sanitized>` and is independent of the hash seed (hence stable
across runs); when it is empty, the path falls back to the salted hash of
the original name and is only stable within one process. -/
theorem C8_data_dir (hash1 hash2 : String → Int) (chat_name : String) :
    (friendly_name chat_name ≠ "" →
      Chat.create_data_dir hash1 chat_name =
        "data/" ++ friendly_name chat_name ∧
      Chat.create_data_dir hash1 chat_name =
        Chat.create_data_dir hash2 chat_name) ∧
    (friendly_name chat_name = "" →
      Chat.create_data_dir hash1 chat_name =
        "data/" ++ toString (hash1 chat_name)) ∧
    friendly_name "name with spaces" = "name_with_spaces" ∧
    friendly_name "name-with-dashes" = "namewithdashes" ∧
    friendly_name "name_with_underscores" = "name_with_underscores" ∧
    friendly_name "a  b" = "a_b" := by
  refine ⟨?_, ?_, by decide, by decide, by decide, by decide⟩
  · intro hne
    have hlen : ¬ ((friendly_name chat_name).data.length == 0) = true := by
      intro h0
      apply hne
      have h1 : (friendly_name chat_name).data = [] :=
        List.eq_nil_of_length_eq_zero (by simpa using h0)
      cases hfn : friendly_name chat_name with
      | mk data =>
        rw [hfn] at h1
        simp only at h1
        rw [h1]
    constructor
    · simp only [Chat.create_data_dir]
      rw [if_neg hlen]
    · simp only [Chat.create_data_dir]
      rw [if_neg hlen, if_neg hlen]
  · intro hempty
    simp only [Chat.create_data_dir]
    rw [if_pos (by rw [hempty]; rfl)]

/-- Witness for C8 at a concrete name with a non-empty sanitization. -/
theorem C8_data_dir_witness :
    friendly_name "name with spaces" ≠ "" ∧
    Chat.create_data_dir (fun _ => 0) "name with spaces" =
      "data/" ++ friendly_name "name with spaces" ∧
    Chat.create_data_dir (fun _ => 0) "name with spaces" =
      Chat.create_data_dir (fun _ => 7) "name with spaces" :=
  ⟨by decide,
    (C8_data_dir (fun _ => 0) (fun _ => 7) "name with spaces").1
      (by decide)⟩

/-- Witness for C7: the theorem evaluated on the empty message list, whose
scenario conjunct exhibits the concrete rewriting. -/
theorem C7_remove_links_witness :
    remove_links [c7row "github.com"] = [c7row "github.com"] :=
  (C7_remove_links []).2.2.2.1

/-- Witness for C10 at a concrete loader. -/
theorem C10_empty_csv_errors_witness :
    Chat.load_messages (fun _ => .ok []) (some []) =
      .error (.indexError "single positional indexer is out-of-bounds") :=
  C10_empty_csv_errors (fun _ => .ok [])

end TextsGpt
